import Mathlib

/-!
# Verification of the MultiQC cutadapt and Picard CrosscheckFingerprints parsers

A shallow embedding, in Lean 4, of the two parsing modules of this repository:

* `multiqc/modules/cutadapt/cutadapt.py` — the line-scanning parser
  (`MultiqcModule.parse_cutadapt_logs`), its derived-metrics second pass, and
  `transform_trimming_length_data_for_plot`;
* `multiqc/modules/picard/CrosscheckFingerprints.py` — the pairwise-record
  parser (`parse_reports`, `_take_till`, `_parse_cli`).

Modelling conventions:

* Python `dict`s are insertion-ordered association lists (`Dict` below);
  updating an existing key replaces its value in place, a new key is appended.
* Python exceptions are the error side of `Except PyErr`; every operation
  that can raise in the source (`d[k]` on a missing key, `float(...)` on a
  malformed string, `comments[1]` on a short list, tuple unpacking, integer
  arithmetic on non-integers, division by zero) is modelled explicitly.
* Python `float` is modelled as the exact rational numbers `ℚ`.  The
  properties proved below involve only decimal literals, sign tests and
  order comparisons for which this model agrees with IEEE semantics.
* The regular expressions used by the source are hand-compiled to
  executable string matchers with Python `re.match`/`re.search` semantics
  (leftmost match; the specific patterns involved never backtrack, because
  each greedy character class is disjoint from what follows it).
* External collaborators (sample-name cleaning, the ignore-list check, the
  fallback sample name coming from file discovery) are parameters, matching
  the spec's external-interface contract.  Calls whose only effect is on the
  reporting side (`add_data_source`, `add_software_version`, `log.debug`)
  do not touch the parsed data and are not modelled.
-/

/-- Python exceptions that the embedded code can raise. -/
inductive PyErr where
  | keyError
  | valueError
  | typeError
  | indexError
  | attributeError
  | zeroDivisionError
  /-- `packaging.version.InvalidVersion` -/
  | invalidVersion
  /-- `multiqc.modules.base_module.ModuleNoSamplesFound` -/
  | moduleNoSamplesFound
deriving DecidableEq, Repr

/-- Successful value of an `Except` computation, if any. -/
def exOk? {ε α : Type} : Except ε α → Option α
  | .ok a => some a
  | .error _ => none

/-- Python's whitespace class `\s` (ASCII): space, tab, LF, CR, FF, VT. -/
def isPySpace (c : Char) : Bool :=
  c == ' ' || c == '\t' || c == '\n' || c == '\r' || c == '\x0c' || c == '\x0b'

/-- Python's word-character class `\w` (ASCII subset): letters, digits, underscore. -/
def isPyWord (c : Char) : Bool :=
  c.isAlphanum || c == '_'

/-- Decimal value of a digit string (`foldl`, most significant first). -/
def natOfDigits (cs : List Char) : Nat :=
  cs.foldl (fun n c => n * 10 + (c.toNat - '0'.toNat)) 0

/-- `isPrefixOfList n h` : does the character list `n` start the list `h`? -/
def isPrefixOfList : List Char → List Char → Bool
  | [], _ => true
  | _ :: _, [] => false
  | a :: as, b :: bs => a == b && isPrefixOfList as bs

/-- Python's substring test `needle in hay` on character lists. -/
def containsSub (needle : List Char) : List Char → Bool
  | [] => isPrefixOfList needle []
  | c :: cs => isPrefixOfList needle (c :: cs) || containsSub needle cs

/-- `a in b` for strings (Python's `in` operator). -/
def strContains (hay needle : String) : Bool :=
  containsSub needle.data hay.data

/-- Python's `str.startswith`. -/
def pyStartsWith (pre s : String) : Bool :=
  isPrefixOfList pre.data s.data

/-- Python's `str.endswith` for one suffix. -/
def pyEndsWith (suf s : String) : Bool :=
  isPrefixOfList suf.data.reverse s.data.reverse

/-- Strip characters satisfying `p` from both ends (Python `str.strip`). -/
def stripBothP (p : Char → Bool) (cs : List Char) : List Char :=
  ((cs.dropWhile p).reverse.dropWhile p).reverse

/-- Python's `str.strip()` (whitespace both ends). -/
def pyStrip (s : String) : String :=
  String.mk (stripBothP isPySpace s.data)

/-- Python's `str.strip("=")`. -/
def pyStripEq (s : String) : String :=
  String.mk (stripBothP (· == '=') s.data)

/-- Python's `str.rstrip("\n")`: remove all trailing newline characters. -/
def rstripNl (s : String) : String :=
  String.mk (s.data.reverse.dropWhile (· == '\n')).reverse

/-- Take a nonempty maximal run of characters satisfying `p`; on success
return the run and the remainder. -/
def takeGroup (p : Char → Bool) (cs : List Char) : Option (List Char × List Char) :=
  let g := cs.takeWhile p
  if g.isEmpty then none else some (g, cs.drop g.length)

/-- Split a character list at every occurrence of `sep` (Python
`str.split(sep)`: `"" → [""]`, adjacent separators yield empty parts). -/
def splitOnCharAux (sep : Char) (cur : List Char) : List Char → List (List Char)
  | [] => [cur.reverse]
  | c :: cs =>
      if c == sep then cur.reverse :: splitOnCharAux sep [] cs
      else splitOnCharAux sep (c :: cur) cs

/-- Python `str.split(sep)` on character lists. -/
def splitOnChar (sep : Char) (cs : List Char) : List (List Char) :=
  splitOnCharAux sep [] cs

/-- Python `float(...)` on a decimal string, as an exact rational: an
optional sign, then digits with at most one point and at least one digit
(`"5"`, `"2.5"`, `".5"`, `"5."`, `"-1.25"`).  Exponent and special forms
are not modelled; the source only feeds this strings matched by `[\d\.]+`
or `\S+`.  Returns `none` where Python raises `ValueError`. -/
def parsePyFloatQ (cs : List Char) : Option ℚ :=
  let (sign, body) :=
    match cs with
    | '-' :: rest => ((-1 : ℚ), rest)
    | '+' :: rest => ((1 : ℚ), rest)
    | rest => ((1 : ℚ), rest)
  match splitOnChar '.' body with
  | [a] =>
      if !a.isEmpty && a.all Char.isDigit then
        some (sign * (natOfDigits a : ℚ))
      else none
  | [a, b] =>
      if (a ++ b).all Char.isDigit && !(a.isEmpty && b.isEmpty) then
        some (sign * ((natOfDigits a : ℚ) +
          (natOfDigits b : ℚ) / ((10 : ℚ) ^ b.length)))
      else none
  | _ => none

section DictModel

variable {K V W : Type}

/-- Insertion-ordered association list modelling a Python `dict`. -/
def Dict (K V : Type) : Type := List (K × V)

instance [DecidableEq K] [DecidableEq V] : DecidableEq (Dict K V) := by
  unfold Dict; infer_instance

instance : Membership (K × V) (Dict K V) := by
  unfold Dict; infer_instance

/-- Dictionary lookup, `d.get(k)` / `d[k]` (the caller handles `KeyError`). -/
def Dict.get? [BEq K] : Dict K V → K → Option V
  | [], _ => none
  | (k, v) :: rest, key => if k == key then some v else Dict.get? rest key

/-- Python `d[k] = v`: replace in place when the key exists, else append. -/
def Dict.insert [BEq K] : Dict K V → K → V → Dict K V
  | [], key, val => [(key, val)]
  | (k, v) :: rest, key, val =>
      if k == key then (k, val) :: rest else (k, v) :: Dict.insert rest key val

/-- Python `k in d`. -/
def Dict.contains [BEq K] (d : Dict K V) (key : K) : Bool :=
  (d.get? key).isSome

/-- Python `d.pop(k)` (ignoring the returned value; the call sites below
check for presence first). -/
def Dict.erase [BEq K] : Dict K V → K → Dict K V
  | [], _ => []
  | (k, v) :: rest, key =>
      if k == key then rest else (k, v) :: Dict.erase rest key

/-- Python `list(d.keys())`. -/
def Dict.keys (d : Dict K V) : List K :=
  d.map Prod.fst

/-- Python `len(d)`. -/
def Dict.size (d : Dict K V) : Nat :=
  d.length

/-- Python `len(d) == 0`. -/
def Dict.isEmpty (d : Dict K V) : Bool :=
  d.size == 0

/-- Executable set-equality of two key views (Python `d1.keys() == d2.keys()`;
`KeysView` comparison is set comparison). -/
def Dict.keysEqB [BEq K] (a : Dict K V) (b : Dict K W) : Bool :=
  (a.keys.all fun k => b.contains k) && (b.keys.all fun k => a.contains k)

/-- Propositional form of key-set agreement. -/
def Dict.sameKeys [BEq K] (a : Dict K V) (b : Dict K W) : Prop :=
  ∀ k, a.contains k = b.contains k

end DictModel

/-! ## Cutadapt: values, version parsing, pattern tables -/

/-- A value stored in a cutadapt sample record: the field regexes store
Python `int`s, `"cutadapt_version"` stores a string, and the derived
`"percent_trimmed"` stores a Python `float` (modelled as `ℚ`). -/
inductive Value where
  | int (n : ℤ)
  | str (s : String)
  | rat (q : ℚ)
deriving DecidableEq, Repr

/-- `packaging.version.parse` restricted to the strings captured by
`([\d\.]+)`: the dot-separated release components, provided every
component is a nonempty digit string (otherwise `InvalidVersion`). -/
def parseRelease (s : String) : Option (List Nat) :=
  let comps := splitOnChar '.' s.data
  if comps.all (fun c => !c.isEmpty && c.all Char.isDigit) then
    some (comps.map natOfDigits)
  else none

/-- Comparison of two release tuples with `packaging` semantics: pad the
shorter with zeros and compare lexicographically (a missing tail equals a
tail of zeros). -/
def relCmp : List Nat → List Nat → Ordering
  | [], bs => if bs.all (· == 0) then .eq else .lt
  | a :: as, [] => if (a :: as).all (· == 0) then .eq else .gt
  | a :: as, b :: bs =>
      if a < b then .lt else if b < a then .gt else relCmp as bs

/-- `u <= v` on release tuples. -/
def relLe (a b : List Nat) : Bool :=
  match relCmp a b with
  | .gt => false
  | _ => true

/-- `u > v` on release tuples. -/
def relGt (a b : List Nat) : Bool :=
  match relCmp a b with
  | .gt => true
  | _ => false

/-- The `try: assert version.parse(v) <= version.parse("1.6") ... except`
block: `true` iff `v` parses as a version numerically at most 1.6
(an unparseable string takes the `except` path, i.e. `false`). -/
def versionLe16 (v : String) : Bool :=
  match parseRelease v with
  | some r => relLe r [1, 6]
  | none => false

/-- `re.match(lit ++ "([\d\.]+)", line)`: anchored at the line start;
returns the captured group.  `re.match` fails when the literal is not a
prefix or when no `[\d\.]` character follows it. -/
def reMatchVersion (lit : String) (line : String) : Option String :=
  if isPrefixOfList lit.data line.data then
    let g := (line.data.drop lit.data.length).takeWhile
      (fun c => c.isDigit || c == '.')
    if g.isEmpty then none else some (String.mk g)
  else none

/-- One entry of the version-dispatch pattern table.  Every regex in the
source's `regexes` dict has the shape
`literal ++ "\s*" ++ "([\d,]+)"  (++ " bp")?`, so an entry is the metric
key, the literal, and whether the `" bp"` suffix is required. -/
structure RegexSpec where
  key : String
  lit : String
  bp : Bool
deriving DecidableEq, Repr

/-- The `"1.7"` (current-generation) pattern table, in source order. -/
def regexes_17 : List RegexSpec := [
  ⟨"bp_processed", "Total basepairs processed:", true⟩,
  ⟨"bp_written", "Total written (filtered):", true⟩,
  ⟨"quality_trimmed", "Quality-trimmed:", true⟩,
  ⟨"r_processed", "Total reads processed:", false⟩,
  ⟨"pairs_processed", "Total read pairs processed:", false⟩,
  ⟨"r_with_adapters", "Reads with adapters:", false⟩,
  ⟨"r1_with_adapters", "Read 1 with adapter:", false⟩,
  ⟨"r2_with_adapters", "Read 2 with adapter:", false⟩,
  ⟨"r_too_short", "Reads that were too short:", false⟩,
  ⟨"pairs_too_short", "Pairs that were too short:", false⟩,
  ⟨"r_too_long", "Reads that were too long:", false⟩,
  ⟨"pairs_too_long", "Pairs that were too long:", false⟩,
  ⟨"r_too_many_N", "Reads with too many N:", false⟩,
  ⟨"pairs_too_many_N", "Pairs with too many N:", false⟩,
  ⟨"r_written", "Reads written (passing filters):", false⟩,
  ⟨"pairs_written", "Pairs written (passing filters):", false⟩]

/-- The `"1.6"` (early-generation) pattern table, in source order. -/
def regexes_16 : List RegexSpec := [
  ⟨"r_processed", "Processed reads:", false⟩,
  ⟨"bp_processed", "Processed bases:", true⟩,
  ⟨"r_trimmed", "Trimmed reads:", false⟩,
  ⟨"quality_trimmed", "Quality-trimmed:", true⟩,
  ⟨"bp_trimmed", "Trimmed bases:", true⟩,
  ⟨"too_short", "Too short reads:", false⟩,
  ⟨"too_long", "Too long reads:", false⟩]

/-- `regexes[parsing_version]`. -/
def regexes (parsing_version : String) : List RegexSpec :=
  if parsing_version == "1.6" then regexes_16 else regexes_17

/-- Try the field pattern at the current position: skip `\s*`, take a
nonempty `[\d,]+` group, and (when `bp` is set) require the literal
`" bp"` after the group.  The greedy group never backtracks: `' '` is in
neither `\s`-after-`[\d,]` nor `[\d,]` overlap with what follows. -/
def numGroupAt (bp : Bool) (cs : List Char) : Option (List Char) :=
  let rest := cs.dropWhile isPySpace
  match takeGroup (fun c => c.isDigit || c == ',') rest with
  | none => none
  | some (g, after) =>
      if bp then (if isPrefixOfList " bp".data after then some g else none)
      else some g

/-- `re.search` for a field pattern: leftmost position where the literal
followed by the rest of the pattern matches; returns the captured group. -/
def reSearchNum (lit : List Char) (bp : Bool) : List Char → Option (List Char)
  | [] => none
  | c :: cs =>
      match (if isPrefixOfList lit (c :: cs)
             then numGroupAt bp ((c :: cs).drop lit.length) else none) with
      | some g => some g
      | none => reSearchNum lit bp cs

/-- `int(match.group(1).replace(",", ""))`: strip the thousands separators
and read the decimal number; Python raises `ValueError` when nothing is
left (a group consisting only of commas). -/
def intOfGroup (g : List Char) : Except PyErr ℤ :=
  let digits := g.filter Char.isDigit
  if digits.isEmpty then .error .valueError else .ok (natOfDigits digits : ℤ)

/-- `re.search(r"Type: regular (\d)'", line)`: leftmost occurrence. -/
def searchTypeRegular : List Char → Option Char
  | [] => none
  | c :: cs =>
      match (match (c :: cs).drop "Type: regular ".data.length,
                   isPrefixOfList "Type: regular ".data (c :: cs) with
             | d :: q :: _, true =>
                 if d.isDigit && q == '\'' then some d else none
             | _, _ => none) with
      | some d => some d
      | none => searchTypeRegular cs

/-- `re.search(r"(\d)' end", line)`: leftmost digit directly followed by
the literal `"' end"`. -/
def searchDigitPrimeEnd : List Char → Option Char
  | [] => none
  | c :: cs =>
      if c.isDigit && isPrefixOfList "' end".data cs then some c
      else searchDigitPrimeEnd cs

/-- `re.search(r"^(\d+)\s+(\d+)\s+([\d\.]+)", line2)`: the histogram row
pattern, anchored at the start of the line.  Returns the trimmed length,
the integer count, and the raw third group (the source converts it with
`float(...)` separately). -/
def parseHistRow (line : String) : Option (Nat × Nat × List Char) :=
  match takeGroup Char.isDigit line.data with
  | none => none
  | some (g1, r1) =>
    match takeGroup isPySpace r1 with
    | none => none
    | some (_, r2) =>
      match takeGroup Char.isDigit r2 with
      | none => none
      | some (g2, r3) =>
        match takeGroup isPySpace r3 with
        | none => none
        | some (_, r4) =>
          match takeGroup (fun c => c.isDigit || c == '.') r4 with
          | none => none
          | some (g3, _) => some (natOfDigits g1, natOfDigits g2, g3)

/-- `shlex.split` (POSIX mode), modelled for inputs free of quote, escape
and comment characters: tokens are maximal runs of non-whitespace
characters.  The command lines considered by the claims contain only such
tokens. -/
def shlexSplit (s : String) : List String :=
  let rec go (cur : List Char) : List Char → List (List Char)
    | [] => if cur.isEmpty then [] else [cur.reverse]
    | c :: cs =>
        if isPySpace c then
          if cur.isEmpty then go [] cs else cur.reverse :: go [] cs
        else go (c :: cur) cs
  (go [] s.data).map String.mk

/-- The filename-extension allowlist of the sample-name heuristic. -/
def fqSuffixes : List String := [".fastq", ".fq", ".gz", ".dat"]

/-- The output-path flags whose following argument is excluded. -/
def outputFlags : List String := ["-o", "-p", "--output", "--paired-output"]

/-- The `input_fqs` filter over the shell-tokenized argument list: keep the
positional arguments that look like input files (known extension, not an
option, not preceded by an output flag). -/
def filterFqs (args : List String) : List String :=
  (args.enum.filter fun ix =>
    !(pyStartsWith "-" ix.2) &&
    (fqSuffixes.any fun suf => pyEndsWith suf ix.2) &&
    (ix.1 == 0 ||
      match args.get? (ix.1 - 1) with
      | some prev => !(outputFlags.contains prev)
      | none => true)).map Prod.snd

/-! ## Cutadapt: the line-scanning parser -/

/-- The per-file metadata and collaborators used by `parse_cutadapt_logs`:
`clean_s_name` is the external sample-name cleaner (already specialised to
this file's metadata `f`), `f_s_name` is the file-discovery fallback
`f["s_name"]` used for stdin-sourced runs. -/
structure FileParams where
  clean_s_name : List String → String
  f_s_name : String

/-- The module-level accumulating state (`self.cutadapt_data`,
`self.cutadapt_length_counts`, `self.cutadapt_length_exp`,
`self.cutadapt_length_obsexp`). -/
structure ModuleState where
  cutadapt_data : Dict String (Dict String Value)
  length_counts : Dict String (Dict String (Dict Nat Nat))
  length_exp : Dict String (Dict String (Dict Nat ℚ))
  length_obsexp : Dict String (Dict String (Dict Nat ℚ))
deriving DecidableEq

/-- The state as constructed in `MultiqcModule.__init__` (lines 38-41). -/
def initModuleState : ModuleState :=
  { cutadapt_data := []
    length_counts := [("default", [])]
    length_exp := [("default", [])]
    length_obsexp := [("default", [])] }

/-- The full scan state of one `parse_cutadapt_logs` call: the local
variables of the scan loop plus the module dictionaries.

`hist_mode` renders the nested histogram loop (source lines 195-209): the
inner `for line2 in lines` shares the outer iterator, so its effect is
exactly that of a mode flag on a single flat pass — while the flag holds
the histogram's scoped sample label, each line matching the row pattern is
recorded, and the first non-matching line clears the flag and is consumed
(the `break` has already taken it from the shared iterator, so the outer
loop never sees it). -/
structure ScanState where
  s_name : Option String
  end_ : String
  cutadapt_version : Option String
  parsing_version : String
  log_section : Option String
  hist_mode : Option String
  cutadapt_data : Dict String (Dict String Value)
  length_counts : Dict String (Dict String (Dict Nat Nat))
  length_exp : Dict String (Dict String (Dict Nat ℚ))
  length_obsexp : Dict String (Dict String (Dict Nat ℚ))
deriving DecidableEq

/-- Local-variable initialisation of `parse_cutadapt_logs` (lines 101-105)
on top of the accumulated module state. -/
def initScanState (ms : ModuleState) : ScanState :=
  { s_name := none
    end_ := "default"
    cutadapt_version := none
    parsing_version := "1.7"
    log_section := none
    hist_mode := none
    cutadapt_data := ms.cutadapt_data
    length_counts := ms.length_counts
    length_exp := ms.length_exp
    length_obsexp := ms.length_obsexp }

/-- Project the module dictionaries back out of a scan state. -/
def ScanState.toModule (st : ScanState) : ModuleState :=
  { cutadapt_data := st.cutadapt_data
    length_counts := st.length_counts
    length_exp := st.length_exp
    length_obsexp := st.length_obsexp }

/-- Does the line announce a new log (source line 111)? -/
def isNewLogLine (line : String) : Bool :=
  strContains line "This is cutadapt" || strContains line "cutadapt version"

/-- The new-log-starting branch (source lines 110-127): reset the sample
name, the end-orientation and the version string; then pick the version
bucket from the explicit tag (`This is cutadapt X`, early generation iff
`X` parses and is at most 1.6) and from the legacy tag
(`cutadapt version X`, early generation unconditionally). -/
def newLogUpdate (st : ScanState) (line : String) : ScanState :=
  if isNewLogLine line then
    let st := { st with s_name := none, end_ := "default", cutadapt_version := none }
    let st :=
      match reMatchVersion "This is cutadapt " line with
      | some v =>
          { st with cutadapt_version := some v
                    parsing_version := if versionLe16 v then "1.6" else "1.7" }
      | none => st
    match reMatchVersion "cutadapt version " line with
    | some v => { st with cutadapt_version := some v, parsing_version := "1.6" }
    | none => st
  else st

/-- The command-line-parameters branch (source lines 128-150): derive the
sample name from the input-file arguments (falling back to the file's own
name), open a fresh record for it (last-write-wins on duplicates), and
stamp the version string when one was captured. -/
def clParamsUpdate (fp : FileParams) (st : ScanState) (line : String) : ScanState :=
  if pyStartsWith "Command line parameters: " line then
    let args := shlexSplit (String.mk (line.data.drop "Command line parameters: ".data.length))
    let input_fqs := filterFqs args
    let sn := if input_fqs.isEmpty then fp.f_s_name else fp.clean_s_name input_fqs
    let rec0 : Dict String Value :=
      match st.cutadapt_version with
      | some v => Dict.insert [] "cutadapt_version" (.str v)
      | none => []
    { st with s_name := some sn, cutadapt_data := st.cutadapt_data.insert sn rec0 }
  else st

/-- `self.cutadapt_data[s_name][k] = v` (raises `KeyError` when the outer
key is absent, as Python indexing does). -/
def setRecordField (data : Dict String (Dict String Value)) (sn k : String)
    (v : Value) : Except PyErr (Dict String (Dict String Value)) :=
  match data.get? sn with
  | none => .error .keyError
  | some rec_ => .ok (data.insert sn (rec_.insert k v))

/-- One pattern applied to the line against the accumulated data dict. -/
def applyRegex (sn : String) (line : String)
    (data : Dict String (Dict String Value)) (spec : RegexSpec) :
    Except PyErr (Dict String (Dict String Value)) :=
  match reSearchNum spec.lit.data spec.bp line.data with
  | some g =>
      match intOfGroup g with
      | .error e => .error e
      | .ok n => setRecordField data sn spec.key (.int n)
  | none => .ok data

/-- The overview-stats search (source lines 159-163): apply every pattern
of the active bucket's table to the line, storing each match as an
integer field of the current sample's record. -/
def applyRegexes (st : ScanState) (sn : String) (line : String) :
    Except PyErr ScanState :=
  match (regexes st.parsing_version).foldlM (applyRegex sn line) st.cutadapt_data with
  | .error e => .error e
  | .ok data => .ok { st with cutadapt_data := data }

/-- The section-marker branch (source lines 165-167). -/
def sectionUpdate (st : ScanState) (line : String) : ScanState :=
  if strContains line "===" then
    { st with log_section := some (pyStrip (pyStripEq (pyStrip line))) }
  else st

/-- The `Type: regular X'` orientation branch (source lines 169-172). -/
def typeRegularUpdate (st : ScanState) (line : String) : ScanState :=
  match searchTypeRegular line.data with
  | some d => { st with end_ := String.mk [d] }
  | none => st

/-- The removed-sequences-overview branch (source lines 174-183): possibly
refine the orientation from an `X' end` qualifier (`res.group(1)` raises
`AttributeError` when the qualifier substring appears without a digit),
then idempotently initialise the three histogram dictionaries for the
current orientation.  Only the counts dictionary is consulted for
presence, exactly as in the source. -/
def overviewEnd (st : ScanState) (line : String) : Except PyErr String :=
  if strContains line "' end" then
    match searchDigitPrimeEnd line.data with
    | some d => .ok (String.mk [d])
    | none => .error .attributeError
  else .ok st.end_

def overviewUpdate (st : ScanState) (line : String) : Except PyErr ScanState :=
  if strContains line "Overview of removed sequences" then
    match overviewEnd st line with
    | .error e => .error e
    | .ok e' =>
      if st.length_counts.contains e' then .ok { st with end_ := e' }
      else
        .ok { st with
          end_ := e'
          length_counts := st.length_counts.insert e' []
          length_exp := st.length_exp.insert e' []
          length_obsexp := st.length_obsexp.insert e' [] }
  else .ok st

/-- Is the line a histogram-table header (source line 186)? -/
def isHistHeader (line : String) : Bool :=
  strContains line "length" && strContains line "count" && strContains line "expect"

/-- `d[end][psn] = dict()` on a two-level dictionary. -/
def setNested2 {V : Type} (d : Dict String (Dict String V)) (k1 k2 : String)
    (v : V) : Except PyErr (Dict String (Dict String V)) :=
  match d.get? k1 with
  | none => .error .keyError
  | some m => .ok (d.insert k1 (m.insert k2 v))

/-- `d[end][psn][len] = v` on a three-level dictionary. -/
def setNested3 {V : Type} (d : Dict String (Dict String (Dict Nat V)))
    (k1 k2 : String) (k3 : Nat) (v : V) :
    Except PyErr (Dict String (Dict String (Dict Nat V))) :=
  match d.get? k1 with
  | none => .error .keyError
  | some m =>
    match m.get? k2 with
    | none => .error .keyError
    | some inner => .ok (d.insert k1 (m.insert k2 (inner.insert k3 v)))

/-- The scoped sample label of a histogram sub-section: the sample name,
suffixed with the active section label when there is one (source lines
187-189). -/
def plotSname (st : ScanState) (sn : String) : String :=
  match st.log_section with
  | some sec => sn ++ " - " ++ sec
  | none => sn

/-- The histogram-header branch (source lines 185-192): create the scoped
sample label's empty row maps in all three histogram dictionaries, and
enter the nested histogram scan. -/
def histHeaderUpdate (st : ScanState) (sn : String) (line : String) :
    Except PyErr ScanState :=
  if isHistHeader line then
    match setNested2 st.length_counts st.end_ (plotSname st sn) [],
          setNested2 st.length_exp st.end_ (plotSname st sn) [],
          setNested2 st.length_obsexp st.end_ (plotSname st sn) [] with
    | .error e, _, _ => .error e
    | .ok _, .error e, _ => .error e
    | .ok _, .ok _, .error e => .error e
    | .ok c, .ok e, .ok o =>
        .ok { st with length_counts := c, length_exp := e, length_obsexp := o
                      hist_mode := some (plotSname st sn) }
  else .ok st

/-- One matched histogram row (source lines 196-207): record the count and
the expected value at the trimmed length, and record count/expected as the
obs/exp value when the expected value is positive, the raw count when it
is zero (`float(...)` conversion of the third group can raise
`ValueError`; the guarded division is never a division by zero). -/
def histRowUpdate (end_ psn : String) (a_len cnt : Nat) (g3 : List Char)
    (c : Dict String (Dict String (Dict Nat Nat)))
    (e o : Dict String (Dict String (Dict Nat ℚ))) :
    Except PyErr (Dict String (Dict String (Dict Nat Nat)) ×
      Dict String (Dict String (Dict Nat ℚ)) ×
      Dict String (Dict String (Dict Nat ℚ))) :=
  match setNested3 c end_ psn a_len cnt with
  | .error er => .error er
  | .ok c' =>
    match parsePyFloatQ g3 with
    | none => .error .valueError
    | some ev =>
      match setNested3 e end_ psn a_len ev with
      | .error er => .error er
      | .ok e' =>
        match setNested3 o end_ psn a_len
            (if 0 < ev then (cnt : ℚ) / ev else (cnt : ℚ)) with
        | .error er => .error er
        | .ok o' => .ok (c', e', o')

/-- Processing of one line by the outer scan (source lines 109-192): the
new-log and command-line branches run unconditionally; the remaining
branches run only while a sample name is active, in source order. -/
def outerStep (fp : FileParams) (st : ScanState) (line : String) :
    Except PyErr ScanState :=
  let st1 := clParamsUpdate fp (newLogUpdate st line) line
  match st1.s_name with
  | none => .ok st1
  | some sn =>
    match applyRegexes st1 sn line with
    | .error e => .error e
    | .ok st2 =>
      let st3 := typeRegularUpdate (sectionUpdate st2 line) line
      match overviewUpdate st3 line with
      | .error e => .error e
      | .ok st4 => histHeaderUpdate st4 sn line

/-- One line of the scan: while the histogram mode is active, a line
matching the row pattern is recorded and the mode persists; the first
non-matching line ends the mode and is consumed without any outer
processing (the inner loop's `break` has already read it from the shared
iterator).  Outside histogram mode, the line goes through `outerStep`. -/
def lineStep (fp : FileParams) (st : ScanState) (line : String) :
    Except PyErr ScanState :=
  match st.hist_mode with
  | some psn =>
      match parseHistRow line with
      | some (a_len, cnt, g3) =>
          match histRowUpdate st.end_ psn a_len cnt g3
              st.length_counts st.length_exp st.length_obsexp with
          | .error e => .error e
          | .ok ceo =>
              .ok { st with length_counts := ceo.1, length_exp := ceo.2.1
                            length_obsexp := ceo.2.2 }
      | none => .ok { st with hist_mode := none }
  | none => outerStep fp st line

/-- The whole line scan of one file (source lines 109-209). -/
def scanLines (fp : FileParams) (st : ScanState) (lines : List String) :
    Except PyErr ScanState :=
  lines.foldlM (lineStep fp) st

/-! ## Cutadapt: the derived-metrics second pass -/

/-- Read a record field as a Python `int` (integer arithmetic on any other
stored value would raise a `TypeError`; in runs of the source the metric
keys used below only ever hold integers). -/
def asInt (v : Value) : Except PyErr ℤ :=
  match v with
  | .int n => .ok n
  | _ => .error .typeError

/-- `d.get(k, 0)` followed by use in integer arithmetic. -/
def getIntD (rec_ : Dict String Value) (k : String) : Except PyErr ℤ :=
  match rec_.get? k with
  | none => .ok 0
  | some v => asInt v

/-- `d[k]` followed by use in integer arithmetic. -/
def getInt (rec_ : Dict String Value) (k : String) : Except PyErr ℤ :=
  match rec_.get? k with
  | none => .error .keyError
  | some v => asInt v

/-- The percent-trimmed computation of the second pass (source lines
212-220): prefer `(bp_processed - bp_written) / bp_processed * 100`, else
fall back to `(bp_trimmed + quality_trimmed) / bp_processed * 100`, else
leave the record unchanged.  Division by a zero `bp_processed` raises
`ZeroDivisionError`, exactly as `float(...) / d["bp_processed"]` does. -/
def percentStep (rec_ : Dict String Value) : Except PyErr (Dict String Value) :=
  if rec_.contains "bp_processed" && rec_.contains "bp_written" then
    match getInt rec_ "bp_processed", getInt rec_ "bp_written" with
    | .error e, _ => .error e
    | .ok _, .error e => .error e
    | .ok bp, .ok bw =>
        if bp = 0 then .error .zeroDivisionError
        else .ok (rec_.insert "percent_trimmed"
          (.rat (((bp - bw : ℤ) : ℚ) / (bp : ℚ) * 100)))
  else if rec_.contains "bp_processed" && rec_.contains "bp_trimmed" then
    match getInt rec_ "bp_processed", getIntD rec_ "bp_trimmed",
          getIntD rec_ "quality_trimmed" with
    | .error e, _, _ => .error e
    | .ok _, .error e, _ => .error e
    | .ok _, .ok _, .error e => .error e
    | .ok bp, .ok bt, .ok qt =>
        if bp = 0 then .error .zeroDivisionError
        else .ok (rec_.insert "percent_trimmed"
          (.rat (((bt + qt : ℤ) : ℚ) / (bp : ℚ) * 100)))
  else .ok rec_

/-- The missing-filtering-categories computation of the second pass
(source lines 221-242): `version.parse(d["cutadapt_version"])` raises
`KeyError` when the record never captured a version string and
`InvalidVersion` when the captured string is not a valid version; for
current-generation records (version strictly greater than 1.6) the
unexplained-filtered count is derived independently for the single-end
and the paired-end field families and stored only when strictly
positive.

`unexplainedFamily` is one family's computation (source lines 223-232 for
the single-end keys, 233-242 for the paired-end keys): when the processed
count is present, `processed - too_short - too_long - too_many_N -
written` with absent terms defaulted to zero, stored under the derived
key only when strictly positive. -/
def unexplainedFamily (rec_ : Dict String Value)
    (processed tooShort tooLong tooManyN written derived : String) :
    Except PyErr (Dict String Value) :=
  if rec_.contains processed then
    match getInt rec_ processed, getIntD rec_ tooShort, getIntD rec_ tooLong,
          getIntD rec_ tooManyN, getIntD rec_ written with
    | .ok p, .ok ts, .ok tl, .ok tn, .ok w =>
        let filtered_unexplained := p - ts - tl - tn - w
        if filtered_unexplained > 0 then
          .ok (rec_.insert derived (.int filtered_unexplained))
        else .ok rec_
    | .error e, _, _, _, _ => .error e
    | _, .error e, _, _, _ => .error e
    | _, _, .error e, _, _ => .error e
    | _, _, _, .error e, _ => .error e
    | _, _, _, _, .error e => .error e
  else .ok rec_

def unexplainedStep (rec_ : Dict String Value) : Except PyErr (Dict String Value) :=
  match rec_.get? "cutadapt_version" with
  | none => .error .keyError
  | some vv =>
    match vv with
    | .int _ => .error .typeError
    | .rat _ => .error .typeError
    | .str vs =>
      match parseRelease vs with
      | none => .error .invalidVersion
      | some rel =>
        if relGt rel [1, 6] then
          match unexplainedFamily rec_ "r_processed" "r_too_short" "r_too_long"
              "r_too_many_N" "r_written" "r_filtered_unexplained" with
          | .error e => .error e
          | .ok rec1 =>
              unexplainedFamily rec1 "pairs_processed" "pairs_too_short"
                "pairs_too_long" "pairs_too_many_N" "pairs_written"
                "pairs_filtered_unexplained"
        else .ok rec_

/-- The second pass over one sample record (source lines 211-242). -/
def deriveRecord (rec_ : Dict String Value) : Except PyErr (Dict String Value) :=
  match percentStep rec_ with
  | .error e => .error e
  | .ok rec1 => unexplainedStep rec1

/-- The second pass over all accumulated sample records ("Calculate a few
extra numbers of our own", source lines 210-242): each record is updated
in place under its own key; the first raising record aborts the pass. -/
def calculateDerived :
    Dict String (Dict String Value) → Except PyErr (Dict String (Dict String Value))
  | [] => .ok []
  | (sn, rec_) :: rest =>
      match deriveRecord rec_ with
      | .error e => .error e
      | .ok rec' =>
        match calculateDerived rest with
        | .error e => .error e
        | .ok rest' => .ok ((sn, rec') :: rest')

/-- `MultiqcModule.parse_cutadapt_logs` for one file (source lines
70-242): the line scan followed by the derived-metrics second pass over
the accumulated records. -/
def parse_cutadapt_logs (fp : FileParams) (ms : ModuleState)
    (lines : List String) : Except PyErr ModuleState :=
  match scanLines fp (initScanState ms) lines with
  | .error e => .error e
  | .ok st =>
    match calculateDerived st.cutadapt_data with
    | .error e => .error e
    | .ok data => .ok { st.toModule with cutadapt_data := data }

/-- The module's parsing phase (source lines 44-45): fold
`parse_cutadapt_logs` over the discovered files, starting from the
`__init__` state. -/
def runCutadaptFiles (files : List (FileParams × List String)) :
    Except PyErr ModuleState :=
  files.foldlM (fun ms fl => parse_cutadapt_logs fl.1 ms fl.2) initModuleState

/-- `MultiqcModule.transform_trimming_length_data_for_plot` (source lines
244-260): raise `ModuleNoSamplesFound` when the three histogram
dictionaries disagree on their key sets; otherwise drop the `"default"`
orientation when it stayed empty (a `KeyError` would be raised if it were
missing) and return the final state with the list of orientations. -/
def transform_trimming_length_data_for_plot (ms : ModuleState) :
    Except PyErr (ModuleState × List String) :=
  if !(ms.length_counts.keysEqB ms.length_exp &&
       ms.length_exp.keysEqB ms.length_obsexp) then
    .error .moduleNoSamplesFound
  else
    match ms.length_counts.get? "default" with
    | none => .error .keyError
    | some m =>
      let ms :=
        if m.isEmpty then
          { ms with
            length_counts := ms.length_counts.erase "default"
            length_exp := ms.length_exp.erase "default"
            length_obsexp := ms.length_obsexp.erase "default" }
        else ms
      .ok (ms, ms.length_counts.keys)

/-! ## Picard CrosscheckFingerprints: the pairwise-record parser -/

/-- A value stored in a pairwise comparison row: the tab-separated fields
are strings, the two injected settings are a `float`-or-`None` LOD
threshold and a `bool`-or-`None` tumor-awareness flag, and a row shorter
than the header is padded with `None` (`DictReader`'s `restval`). -/
inductive CVal where
  | str (s : String)
  | float (q : ℚ)
  | bool (b : Bool)
  | pynone
deriving DecidableEq, Repr

/-- The preamble predicate of the `_take_till` call site (source line 45):
`lambda line: line.startswith("#") or line == "\n"`. -/
def is_comment_or_blank (line : String) : Bool :=
  pyStartsWith "#" line || line == "\n"

/-- `_take_till` (source lines 118-133): split the lines at the first one
for which `fn` is false.  Returns that line, the lines after it, and the
skipped preamble; `none` models the bare `()` returned when the iterator
is exhausted first (whose two-element unpacking at the call site then
raises). -/
def take_till (fn : String → Bool) :
    List String → Option (String × List String × List String)
  | [] => none
  | l :: rest =>
      if fn l then
        (take_till fn rest).map (fun vrh => (vrh.1, vrh.2.1, l :: vrh.2.2))
      else some (l, rest, [])

/-- `re.search(key ++ "(\s|=)(" ++ grp-class ++ "+)", line)`: leftmost
occurrence of the literal followed by one whitespace-or-equals character
and a nonempty run of group characters; returns the second group. -/
def searchCliFlag (key : List Char) (grp : Char → Bool) :
    List Char → Option (List Char)
  | [] => none
  | c :: cs =>
      match (if isPrefixOfList key (c :: cs) then
               match (c :: cs).drop key.length with
               | sep :: rest =>
                   if isPySpace sep || sep == '=' then
                     (takeGroup grp rest).map Prod.fst
                   else none
               | [] => none
             else none) with
      | some g => some g
      | none => searchCliFlag key grp cs

/-- Modelled from the spec: `multiqc.utils.util_functions.strtobool` is
repository code outside `src/`; the spec (§4.3 step 4) only says the
matched token is read as a boolean flag.  Modelled with the classic
`distutils.util.strtobool` truth table, raising `ValueError` on anything
else. -/
def strtobool (s : String) : Except PyErr Bool :=
  let l := String.mk (s.data.map Char.toLower)
  if ["y", "yes", "t", "true", "on", "1"].contains l then .ok true
  else if ["n", "no", "f", "false", "off", "0"].contains l then .ok false
  else .error .valueError

/-- `_parse_cli` (source lines 136-152): sniff the optional
tumor-awareness flag and LOD threshold out of the tool-invocation line. -/
def parse_cli (line : String) : Except PyErr (Option Bool × Option ℚ) :=
  match (match searchCliFlag "CALCULATE_TUMOR_AWARE_RESULTS".data isPyWord line.data with
         | some g => (strtobool (String.mk g)).map some
         | none => .ok none : Except PyErr (Option Bool)) with
  | .error e => .error e
  | .ok tumor_awareness =>
    match searchCliFlag "LOD_THRESHOLD".data (fun c => !isPySpace c) line.data with
    | some g =>
        match parsePyFloatQ g with
        | some q => .ok (tumor_awareness, some q)
        | none => .error .valueError
    | none => .ok (tumor_awareness, none)

/-- Zip a data row with the header fields (`csv.DictReader`): a short row
is padded with `None` (`restval`); surplus fields beyond the header are
collected under the `restkey` (`None`) key, which no code here reads, so
they are dropped. -/
def mkRow : List String → List String → Dict String CVal
  | [], _ => []
  | f :: fs, [] => (f, CVal.pynone) :: mkRow fs []
  | f :: fs, v :: vs => (f, CVal.str v) :: mkRow fs vs

/-- The rows yielded by `DictReader(metrics, fieldnames=header,
delimiter="\t")`: each remaining line, split on tabs (line terminator
stripped); completely blank lines yield empty csv rows, which
`DictReader` skips. -/
def dictReaderRows (fieldnames : List String) (lines : List String) :
    List (Dict String CVal) :=
  lines.filterMap fun l =>
    let l' := rstripNl l
    if l' == "" then none
    else some (mkRow fieldnames ((splitOnChar '\t' l'.data).map String.mk))

/-- Read a row field that the code passes to a string-consuming
collaborator; a `None` there (short row) is modelled as the `TypeError`
the collaborator's string operations would raise. -/
def getStr (row : Dict String CVal) (k : String) : Except PyErr String :=
  match row.get? k with
  | none => .error .keyError
  | some (.str s) => .ok s
  | some _ => .error .typeError

/-- `row[k] = clean_s_name(row[k], f)`. -/
def cleanField (clean : String → String) (row : Dict String CVal) (k : String) :
    Except PyErr (Dict String CVal) :=
  match getStr row k with
  | .error e => .error e
  | .ok s => .ok (row.insert k (.str (clean s)))

/-- The sample-name normalisation of one row (source lines 58-62): clean
the four sample/group-name fields in place. -/
def cleanRow (clean : String → String) (row : Dict String CVal) :
    Except PyErr (Dict String CVal) := do
  let row ← cleanField clean row "LEFT_SAMPLE"
  let row ← cleanField clean row "LEFT_GROUP_VALUE"
  let row ← cleanField clean row "RIGHT_SAMPLE"
  cleanField clean row "RIGHT_GROUP_VALUE"

/-- The row loop of `parse_reports` (source lines 53-69): enumerate ALL
rows of the file (the index advances on ignored rows too), drop rows
whose either endpoint sample is on the ignore list, clean the four
sample/group names, inject the two CLI settings, and store the row in the
accumulating record set under the enumeration index. -/
def processRows (ign : String → Bool) (clean : String → String)
    (cli : Option Bool × Option ℚ) (acc : Dict Nat (Dict String CVal)) :
    List (Nat × Dict String CVal) → Except PyErr (Dict Nat (Dict String CVal))
  | [] => .ok acc
  | (i, row) :: rest =>
      match getStr row "LEFT_SAMPLE", getStr row "RIGHT_SAMPLE" with
      | .error e, _ => .error e
      | .ok _, .error e => .error e
      | .ok ls, .ok rs =>
        if ign ls || ign rs then processRows ign clean cli acc rest
        else
          match cleanRow clean row with
          | .error e => .error e
          | .ok row =>
            let row := row.insert "LOD_THRESHOLD"
              (match cli.2 with | some q => .float q | none => .pynone)
            let row := row.insert "TUMOR_AWARENESS"
              (match cli.1 with | some b => .bool b | none => .pynone)
            processRows ign clean cli (acc.insert i row) rest

/-- One iteration of the file loop of `parse_reports` (source lines
43-69): split off the comment preamble (a file with no data line aborts
with the unpacking error), take the first remaining line as the header,
silently skip the file when the header lacks the discriminating
`"LEFT_GROUP_VALUE"` column, read the CLI settings from the second
preamble line (`comments[1]` raises `IndexError` on a shorter preamble),
then run the row loop. -/
def parseCrosscheckFile (ign : String → Bool) (clean : String → String)
    (acc : Dict Nat (Dict String CVal)) (fileLines : List String) :
    Except PyErr (Dict Nat (Dict String CVal)) :=
  match take_till is_comment_or_blank fileLines with
  | none => .error .valueError
  | some (val, restLines, comments) =>
    let header := (splitOnChar '\t' (rstripNl val).data).map String.mk
    if !(header.contains "LEFT_GROUP_VALUE") then .ok acc
    else
      match (match comments.get? 1 with
             | none => .error .indexError
             | some c => parse_cli c : Except PyErr (Option Bool × Option ℚ)) with
      | .error e => .error e
      | .ok cli => processRows ign clean cli acc (dictReaderRows header restLines).enum

/-- The parsing loop of `parse_reports` (source lines 40-69); the
aggregation and table-rendering code after the loop only shapes the
result for the reporting sink and is outside the claims considered
here. -/
def parse_reports (ign : String → Bool) (clean : String → String)
    (files : List (List String)) : Except PyErr (Dict Nat (Dict String CVal)) :=
  files.foldlM (parseCrosscheckFile ign clean) []



/-! ## Dictionary lemmas -/

section DictLemmas

variable {K V W : Type} [BEq K] [LawfulBEq K]

omit [BEq K] [LawfulBEq K] in
theorem Dict.keys_cons (a : K) (b : V) (rest : Dict K V) :
    Dict.keys ((a, b) :: rest) = a :: Dict.keys rest := rfl

theorem Dict.get?_insert (d : Dict K V) (k k' : K) (v : V) :
    (d.insert k v).get? k' = if k == k' then some v else d.get? k' := by
  induction d with
  | nil => simp [Dict.insert, Dict.get?]
  | cons kv rest ih =>
      obtain ⟨a, b⟩ := kv
      by_cases h : a = k
      · subst h
        by_cases h2 : a = k' <;> simp [Dict.insert, Dict.get?, h2]
      · have hb : (a == k) = false := by simp [h]
        by_cases h2 : a = k'
        · subst h2
          have hk : (k == a) = false := by simp [Ne.symm h]
          simp [Dict.insert, Dict.get?, hb, hk]
        · have hb2 : (a == k') = false := by simp [h2]
          simp [Dict.insert, Dict.get?, hb, hb2, ih]

theorem Dict.get?_insert_self (d : Dict K V) (k : K) (v : V) :
    (d.insert k v).get? k = some v := by
  simp [Dict.get?_insert]

theorem Dict.get?_insert_ne (d : Dict K V) {k k' : K} (v : V) (h : k ≠ k') :
    (d.insert k v).get? k' = d.get? k' := by
  simp [Dict.get?_insert, h]

theorem Dict.contains_insert (d : Dict K V) (k k' : K) (v : V) :
    (d.insert k v).contains k' = (k == k' || d.contains k') := by
  unfold Dict.contains
  rw [Dict.get?_insert]
  by_cases h : k = k' <;> simp [h]

omit [LawfulBEq K] in
theorem Dict.contains_eq_true_of_get? {d : Dict K V} {k : K} {v : V}
    (h : d.get? k = some v) : d.contains k = true := by
  simp [Dict.contains, h]

theorem Dict.contains_of_mem_keys {d : Dict K V} {k : K} (h : k ∈ d.keys) :
    d.contains k = true := by
  induction d with
  | nil => simp [Dict.keys] at h
  | cons x rest ih =>
      obtain ⟨a, b⟩ := x
      rw [Dict.keys_cons] at h
      rcases List.mem_cons.1 h with h1 | h1
      · subst h1; simp [Dict.contains, Dict.get?]
      · by_cases ha : a = k
        · simp [Dict.contains, Dict.get?, ha]
        · have hb : (a == k) = false := by simp [ha]
          have := ih h1
          simp only [Dict.contains, Dict.get?, hb, if_false] at this ⊢
          exact this

theorem Dict.mem_keys_of_get? {d : Dict K V} {k : K} {v : V}
    (h : d.get? k = some v) : k ∈ d.keys := by
  induction d with
  | nil => simp [Dict.get?] at h
  | cons kv rest ih =>
      obtain ⟨a, b⟩ := kv
      unfold Dict.get? at h
      rw [Dict.keys_cons]
      by_cases ha : a = k
      · subst ha; simp
      · have hb : (a == k) = false := by simp [ha]
        simp only [hb, if_false] at h
        exact List.mem_cons.2 (Or.inr (ih h))

theorem Dict.get?_eq_none_of_not_mem_keys {d : Dict K V} {k : K}
    (h : k ∉ d.keys) : d.get? k = none := by
  cases hg : d.get? k with
  | none => rfl
  | some v => exact absurd (Dict.mem_keys_of_get? hg) h

theorem Dict.keys_insert_of_not_mem {d : Dict K V} {k : K} (v : V)
    (h : k ∉ d.keys) : (d.insert k v).keys = d.keys ++ [k] := by
  induction d with
  | nil => simp [Dict.insert, Dict.keys]
  | cons kv rest ih =>
      obtain ⟨a, b⟩ := kv
      rw [Dict.keys_cons] at h
      have h1 : k ≠ a := fun e => h (e ▸ List.mem_cons_self a _)
      have h2 : k ∉ Dict.keys rest := fun e => h (List.mem_cons.2 (Or.inr e))
      have hb : (a == k) = false := by simp [Ne.symm h1]
      show Dict.keys (if (a == k) = true then (a, v) :: rest else
        (a, b) :: Dict.insert rest k v) = _
      rw [hb]
      simp only [if_false, Bool.false_eq_true, Dict.keys_cons, ih h2]
      rfl

theorem Dict.sameKeys_insert {a : Dict K V} {b : Dict K W}
    (h : a.sameKeys b) (k : K) (v : V) (w : W) :
    (a.insert k v).sameKeys (b.insert k w) := by
  intro k'
  rw [Dict.contains_insert, Dict.contains_insert, h k']

omit [LawfulBEq K] in
theorem Dict.sameKeys_refl (a : Dict K V) : a.sameKeys a := fun _ => rfl

omit [LawfulBEq K] in
theorem Dict.sameKeys_contains {a : Dict K V} {b : Dict K W}
    (h : a.sameKeys b) {k : K} (hk : a.contains k = true) : b.contains k = true := by
  rw [← h k]; exact hk

omit [LawfulBEq K] in
theorem Dict.get?_isSome_of_contains {d : Dict K V} {k : K}
    (h : d.contains k = true) : ∃ v, d.get? k = some v := by
  unfold Dict.contains at h
  cases hg : d.get? k with
  | none => rw [hg] at h; simp at h
  | some v => exact ⟨v, rfl⟩

theorem Dict.keysEqB_of_sameKeys {a : Dict K V} {b : Dict K W}
    (h : a.sameKeys b) : a.keysEqB b = true := by
  unfold Dict.keysEqB
  rw [Bool.and_eq_true, List.all_eq_true, List.all_eq_true]
  constructor
  · intro k hk
    rw [← h k]
    exact Dict.contains_of_mem_keys hk
  · intro k hk
    rw [h k]
    exact Dict.contains_of_mem_keys hk

end DictLemmas

/-! ## The histogram-dictionary alignment invariant -/

/-- The three parallel length-histogram dictionaries agree on their
end-orientation key set and, per end-orientation, on their
scoped-sample-label key sets; and the `"default"` orientation installed
by `__init__` is present. -/
def lengthInv (c : Dict String (Dict String (Dict Nat Nat)))
    (e o : Dict String (Dict String (Dict Nat ℚ))) : Prop :=
  c.sameKeys e ∧ e.sameKeys o ∧
  (∀ k mc me mo, c.get? k = some mc → e.get? k = some me →
     o.get? k = some mo → (mc.sameKeys me ∧ me.sameKeys mo)) ∧
  c.contains "default" = true

/-- The invariant on the module state. -/
def ModuleState.histAligned (ms : ModuleState) : Prop :=
  lengthInv ms.length_counts ms.length_exp ms.length_obsexp

/-- The invariant on a scan state. -/
def ScanState.histAligned (st : ScanState) : Prop :=
  lengthInv st.length_counts st.length_exp st.length_obsexp

theorem initModuleState_histAligned : initModuleState.histAligned := by
  refine ⟨?_, ?_, ?_, ?_⟩
  · intro k
    by_cases h : "default" = k <;>
      simp [initModuleState, Dict.contains, Dict.get?, h]
  · intro k
    by_cases h : "default" = k <;>
      simp [initModuleState, Dict.contains, Dict.get?, h]
  · intro k mc me mo hc he ho
    simp only [initModuleState, Dict.get?] at hc he ho
    by_cases h : ("default" == k) = true
    · simp only [h, if_pos rfl] at hc he ho
      cases hc; cases he; cases ho
      exact ⟨fun _ => rfl, fun _ => rfl⟩
    · rw [if_neg (by simpa using h)] at hc
      cases hc
  · rfl

theorem initScanState_histAligned {ms : ModuleState} (h : ms.histAligned) :
    (initScanState ms).histAligned := h

/-! ### Field-preservation lemmas for the scan branches -/

theorem newLogUpdate_fields (st : ScanState) (line : String) :
    (newLogUpdate st line).length_counts = st.length_counts ∧
    (newLogUpdate st line).length_exp = st.length_exp ∧
    (newLogUpdate st line).length_obsexp = st.length_obsexp ∧
    (newLogUpdate st line).cutadapt_data = st.cutadapt_data ∧
    (newLogUpdate st line).hist_mode = st.hist_mode ∧
    (newLogUpdate st line).log_section = st.log_section := by
  unfold newLogUpdate
  cases h : isNewLogLine line
  · simp [h]
  · cases hn : reMatchVersion "This is cutadapt " line <;>
      cases ho : reMatchVersion "cutadapt version " line <;>
      simp [h, hn, ho]

theorem newLogUpdate_not_version {st : ScanState} {line : String}
    (h : isNewLogLine line = false) : newLogUpdate st line = st := by
  unfold newLogUpdate
  rw [h]
  simp

theorem clParamsUpdate_fields (fp : FileParams) (st : ScanState) (line : String) :
    (clParamsUpdate fp st line).length_counts = st.length_counts ∧
    (clParamsUpdate fp st line).length_exp = st.length_exp ∧
    (clParamsUpdate fp st line).length_obsexp = st.length_obsexp ∧
    (clParamsUpdate fp st line).hist_mode = st.hist_mode ∧
    (clParamsUpdate fp st line).parsing_version = st.parsing_version ∧
    (clParamsUpdate fp st line).log_section = st.log_section := by
  unfold clParamsUpdate
  split <;> simp

theorem applyRegexes_ok {st : ScanState} {sn line : String} {st' : ScanState}
    (h : applyRegexes st sn line = .ok st') :
    ∃ data, st' = { st with cutadapt_data := data } := by
  unfold applyRegexes at h
  split at h
  · cases h
  · cases h
    exact ⟨_, rfl⟩

theorem sectionUpdate_fields (st : ScanState) (line : String) :
    (sectionUpdate st line).length_counts = st.length_counts ∧
    (sectionUpdate st line).length_exp = st.length_exp ∧
    (sectionUpdate st line).length_obsexp = st.length_obsexp ∧
    (sectionUpdate st line).cutadapt_data = st.cutadapt_data ∧
    (sectionUpdate st line).hist_mode = st.hist_mode ∧
    (sectionUpdate st line).parsing_version = st.parsing_version ∧
    (sectionUpdate st line).end_ = st.end_ ∧
    (sectionUpdate st line).s_name = st.s_name := by
  unfold sectionUpdate
  split <;> simp

theorem typeRegularUpdate_fields (st : ScanState) (line : String) :
    (typeRegularUpdate st line).length_counts = st.length_counts ∧
    (typeRegularUpdate st line).length_exp = st.length_exp ∧
    (typeRegularUpdate st line).length_obsexp = st.length_obsexp ∧
    (typeRegularUpdate st line).cutadapt_data = st.cutadapt_data ∧
    (typeRegularUpdate st line).hist_mode = st.hist_mode ∧
    (typeRegularUpdate st line).parsing_version = st.parsing_version ∧
    (typeRegularUpdate st line).log_section = st.log_section ∧
    (typeRegularUpdate st line).s_name = st.s_name := by
  unfold typeRegularUpdate
  split <;> simp

theorem overviewUpdate_ok_fields {st : ScanState} {line : String} {st' : ScanState}
    (h : overviewUpdate st line = .ok st') :
    st'.cutadapt_data = st.cutadapt_data ∧
    st'.hist_mode = st.hist_mode ∧
    st'.parsing_version = st.parsing_version ∧
    st'.log_section = st.log_section ∧
    st'.s_name = st.s_name := by
  unfold overviewUpdate at h
  split at h
  · split at h
    · cases h
    · split at h <;> (cases h; simp)
  · cases h; simp

theorem overviewUpdate_histAligned {st : ScanState} {line : String} {st' : ScanState}
    (inv : st.histAligned) (h : overviewUpdate st line = .ok st') :
    st'.histAligned := by
  obtain ⟨h1, h2, h3, h4⟩ := inv
  unfold overviewUpdate at h
  split at h
  · split at h
    · cases h
    · rename_i e' _
      split at h
      · cases h; exact ⟨h1, h2, h3, h4⟩
      · cases h
        refine ⟨Dict.sameKeys_insert h1 e' [] [], Dict.sameKeys_insert h2 e' [] [], ?_, ?_⟩
        · intro k mc me mo hc he ho
          simp only [ScanState.histAligned, lengthInv] at *
          by_cases hk : e' = k
          · subst hk
            rw [Dict.get?_insert_self] at hc he ho
            cases hc; cases he; cases ho
            exact ⟨Dict.sameKeys_refl [], Dict.sameKeys_refl []⟩
          · rw [Dict.get?_insert_ne _ _ hk] at hc
            rw [Dict.get?_insert_ne _ _ hk] at he
            rw [Dict.get?_insert_ne _ _ hk] at ho
            exact h3 k mc me mo hc he ho
        · simp only [Dict.contains_insert, h4, Bool.or_true]
  · cases h; exact ⟨h1, h2, h3, h4⟩

theorem setNested2_ok {V : Type} {d : Dict String (Dict String V)} {k1 k2 : String}
    {v : V} {d' : Dict String (Dict String V)}
    (h : setNested2 d k1 k2 v = .ok d') :
    ∃ m, d.get? k1 = some m ∧ d' = d.insert k1 (m.insert k2 v) := by
  unfold setNested2 at h
  split at h
  · cases h
  · rename_i m hm
    cases h
    exact ⟨m, hm, rfl⟩

theorem setNested3_ok {V : Type} {d : Dict String (Dict String (Dict Nat V))}
    {k1 k2 : String} {k3 : Nat} {v : V} {d' : Dict String (Dict String (Dict Nat V))}
    (h : setNested3 d k1 k2 k3 v = .ok d') :
    ∃ m inner, d.get? k1 = some m ∧ m.get? k2 = some inner ∧
      d' = d.insert k1 (m.insert k2 (inner.insert k3 v)) := by
  unfold setNested3 at h
  split at h
  · cases h
  · rename_i m hm
    split at h
    · cases h
    · rename_i inner hinner
      cases h
      exact ⟨m, inner, hm, hinner, rfl⟩

theorem histHeaderUpdate_ok_fields {st : ScanState} {sn line : String} {st' : ScanState}
    (h : histHeaderUpdate st sn line = .ok st') :
    st'.cutadapt_data = st.cutadapt_data ∧
    st'.parsing_version = st.parsing_version ∧
    st'.log_section = st.log_section ∧
    st'.end_ = st.end_ ∧
    st'.s_name = st.s_name := by
  unfold histHeaderUpdate at h
  by_cases hh : isHistHeader line = true
  · rw [if_pos hh] at h
    cases hc' : setNested2 st.length_counts st.end_ (plotSname st sn) [] with
    | error e => simp [hc'] at h
    | ok c =>
      cases he' : setNested2 st.length_exp st.end_ (plotSname st sn) [] with
      | error e => simp [hc', he'] at h
      | ok e =>
        cases ho' : setNested2 st.length_obsexp st.end_ (plotSname st sn) [] with
        | error e2 => simp [hc', he', ho'] at h
        | ok o =>
          rw [hc', he', ho'] at h
          cases h
          simp
  · rw [if_neg hh] at h
    cases h
    simp

theorem histHeaderUpdate_histAligned {st : ScanState} {sn line : String}
    {st' : ScanState} (inv : st.histAligned)
    (h : histHeaderUpdate st sn line = .ok st') : st'.histAligned := by
  obtain ⟨h1, h2, h3, h4⟩ := inv
  unfold histHeaderUpdate at h
  by_cases hh : isHistHeader line = true
  · rw [if_pos hh] at h
    cases hc' : setNested2 st.length_counts st.end_ (plotSname st sn) [] with
    | error e => simp [hc'] at h
    | ok c =>
      cases he' : setNested2 st.length_exp st.end_ (plotSname st sn) [] with
      | error e => simp [hc', he'] at h
      | ok e =>
        cases ho' : setNested2 st.length_obsexp st.end_ (plotSname st sn) [] with
        | error e2 => simp [hc', he', ho'] at h
        | ok o =>
          rw [hc', he', ho'] at h
          cases h
          obtain ⟨mc, hmc, rfl⟩ := setNested2_ok hc'
          obtain ⟨me, hme, rfl⟩ := setNested2_ok he'
          obtain ⟨mo, hmo, rfl⟩ := setNested2_ok ho'
          refine ⟨Dict.sameKeys_insert h1 _ _ _, Dict.sameKeys_insert h2 _ _ _, ?_, ?_⟩
          · intro k mc' me' mo' hc he ho
            by_cases hk : st.end_ = k
            · subst hk
              rw [Dict.get?_insert_self] at hc he ho
              cases hc; cases he; cases ho
              obtain ⟨s1, s2⟩ := h3 _ _ _ _ hmc hme hmo
              exact ⟨Dict.sameKeys_insert s1 _ _ _, Dict.sameKeys_insert s2 _ _ _⟩
            · rw [Dict.get?_insert_ne _ _ hk] at hc
              rw [Dict.get?_insert_ne _ _ hk] at he
              rw [Dict.get?_insert_ne _ _ hk] at ho
              exact h3 k mc' me' mo' hc he ho
          · simp only [Dict.contains_insert, h4, Bool.or_true]
  · rw [if_neg hh] at h
    cases h
    exact ⟨h1, h2, h3, h4⟩

theorem histRowUpdate_histAligned {end_ psn : String} {a_len cnt : Nat}
    {g3 : List Char} {c : Dict String (Dict String (Dict Nat Nat))}
    {e o : Dict String (Dict String (Dict Nat ℚ))} {ceo}
    (inv : lengthInv c e o)
    (h : histRowUpdate end_ psn a_len cnt g3 c e o = .ok ceo) :
    lengthInv ceo.1 ceo.2.1 ceo.2.2 := by
  obtain ⟨h1, h2, h3, h4⟩ := inv
  unfold histRowUpdate at h
  split at h
  · cases h
  · rename_i c' hc'
    split at h
    · cases h
    · split at h
      · cases h
      · rename_i e' he'
        split at h
        · cases h
        · rename_i o' ho'
          cases h
          obtain ⟨mc, ic, hmc, hic, rfl⟩ := setNested3_ok hc'
          obtain ⟨me, ie, hme, hie, rfl⟩ := setNested3_ok he'
          obtain ⟨mo, io, hmo, hio, rfl⟩ := setNested3_ok ho'
          refine ⟨Dict.sameKeys_insert h1 _ _ _, Dict.sameKeys_insert h2 _ _ _, ?_, ?_⟩
          · intro k mc' me' mo' hc he ho
            by_cases hk : end_ = k
            · subst hk
              rw [Dict.get?_insert_self] at hc he ho
              cases hc; cases he; cases ho
              obtain ⟨s1, s2⟩ := h3 _ _ _ _ hmc hme hmo
              exact ⟨Dict.sameKeys_insert s1 _ _ _, Dict.sameKeys_insert s2 _ _ _⟩
            · rw [Dict.get?_insert_ne _ _ hk] at hc
              rw [Dict.get?_insert_ne _ _ hk] at he
              rw [Dict.get?_insert_ne _ _ hk] at ho
              exact h3 k mc' me' mo' hc he ho
          · simp only [Dict.contains_insert, h4, Bool.or_true]

/-! ### Invariant preservation along the scan -/

theorem outerStep_histAligned {fp : FileParams} {st : ScanState} {line : String}
    {st' : ScanState} (inv : st.histAligned) (h : outerStep fp st line = .ok st') :
    st'.histAligned := by
  unfold outerStep at h
  have inv1 : (clParamsUpdate fp (newLogUpdate st line) line).histAligned := by
    have e1 := newLogUpdate_fields st line
    have e2 := clParamsUpdate_fields fp (newLogUpdate st line) line
    unfold ScanState.histAligned at inv ⊢
    rw [e2.1, e2.2.1, e2.2.2.1, e1.1, e1.2.1, e1.2.2.1]
    exact inv
  simp only [] at h
  split at h
  · cases h; exact inv1
  · split at h
    · cases h
    · rename_i sn st2 happ
      split at h
      · cases h
      · rename_i st4 hov
        obtain ⟨data, rfl⟩ := applyRegexes_ok happ
        have inv2 : ScanState.histAligned
            { clParamsUpdate fp (newLogUpdate st line) line with cutadapt_data := data } := inv1
        have e3 := sectionUpdate_fields
          { clParamsUpdate fp (newLogUpdate st line) line with cutadapt_data := data } line
        have e4 := typeRegularUpdate_fields
          (sectionUpdate { clParamsUpdate fp (newLogUpdate st line) line with cutadapt_data := data } line) line
        have inv3 : (typeRegularUpdate (sectionUpdate
            { clParamsUpdate fp (newLogUpdate st line) line with cutadapt_data := data } line) line).histAligned := by
          unfold ScanState.histAligned at inv2 ⊢
          rw [e4.1, e4.2.1, e4.2.2.1, e3.1, e3.2.1, e3.2.2.1]
          exact inv2
        have inv4 := overviewUpdate_histAligned inv3 hov
        exact histHeaderUpdate_histAligned inv4 h

theorem lineStep_histAligned {fp : FileParams} {st : ScanState} {line : String}
    {st' : ScanState} (inv : st.histAligned) (h : lineStep fp st line = .ok st') :
    st'.histAligned := by
  unfold lineStep at h
  split at h
  · split at h
    · split at h
      · cases h
      · rename_i ceo hrow
        cases h
        exact histRowUpdate_histAligned inv hrow
    · cases h; exact inv
  · exact outerStep_histAligned inv h

/-- `Except`-valued `foldlM` preserves any invariant its step preserves. -/
theorem foldlM_except_inv {α σ ε : Type} (P : σ → Prop) (f : σ → α → Except ε σ)
    (hf : ∀ s a s', P s → f s a = .ok s' → P s') :
    ∀ (l : List α) (s s' : σ), P s → l.foldlM f s = .ok s' → P s'
  | [], s, s', hs, h => by
      simp only [List.foldlM_nil] at h
      cases h
      exact hs
  | a :: l, s, s', hs, h => by
      rw [List.foldlM_cons] at h
      cases hfa : f s a with
      | error e => rw [hfa] at h; cases h
      | ok s1 =>
          rw [hfa] at h
          simp only [bind, Except.bind] at h
          exact foldlM_except_inv P f hf l s1 s' (hf s a s1 hs hfa) h

theorem scanLines_histAligned {fp : FileParams} {st st' : ScanState}
    {lines : List String} (inv : st.histAligned)
    (h : scanLines fp st lines = .ok st') : st'.histAligned :=
  foldlM_except_inv ScanState.histAligned (lineStep fp)
    (fun _ _ _ hs hstep => lineStep_histAligned hs hstep) lines st st' inv h

theorem parse_cutadapt_logs_histAligned {fp : FileParams} {ms ms' : ModuleState}
    {lines : List String} (inv : ms.histAligned)
    (h : parse_cutadapt_logs fp ms lines = .ok ms') : ms'.histAligned := by
  unfold parse_cutadapt_logs at h
  split at h
  · cases h
  · rename_i st hscan
    split at h
    · cases h
    · cases h
      exact scanLines_histAligned (initScanState_histAligned inv) hscan

theorem runCutadaptFiles_histAligned {files : List (FileParams × List String)}
    {ms : ModuleState} (h : runCutadaptFiles files = .ok ms) : ms.histAligned := by
  unfold runCutadaptFiles at h
  exact foldlM_except_inv ModuleState.histAligned
    (fun ms fl => parse_cutadapt_logs fl.1 ms fl.2)
    (fun _ _ _ hs hstep => parse_cutadapt_logs_histAligned hs hstep)
    files initModuleState ms initModuleState_histAligned h

/-- Under the alignment invariant, the post-parse transform cannot take
its key-set-inconsistency failure branch: it succeeds. -/
theorem transform_ok_of_histAligned {ms : ModuleState} (inv : ms.histAligned) :
    ∃ r, transform_trimming_length_data_for_plot ms = .ok r := by
  obtain ⟨h1, h2, h3, h4⟩ := inv
  unfold transform_trimming_length_data_for_plot
  rw [Dict.keysEqB_of_sameKeys h1, Dict.keysEqB_of_sameKeys h2]
  obtain ⟨m, hm⟩ := Dict.get?_isSome_of_contains h4
  rw [hm]
  simp only [Bool.and_self, Bool.not_true, Bool.false_eq_true, if_false]
  split <;> exact ⟨_, rfl⟩

/-! ## Claim C9 -/

/-- **C9**: every parsing step keeps the three parallel length-histogram
mappings aligned — the same end-orientation key set, and per
end-orientation the same scoped-sample-label key set — because every code
path creating an entry creates it in all three simultaneously; hence for
any state actually reaching the post-parse transform, the
key-set-inconsistency failure branch is not taken and the transform
succeeds. -/
theorem claim_C9 (files : List (FileParams × List String)) (ms : ModuleState)
    (h : runCutadaptFiles files = .ok ms) :
    ms.histAligned ∧ ∃ r, transform_trimming_length_data_for_plot ms = .ok r :=
  ⟨runCutadaptFiles_histAligned h,
   transform_ok_of_histAligned (runCutadaptFiles_histAligned h)⟩

/-- Witness for C9 at the concrete empty run. -/
theorem claim_C9_witness :
    initModuleState.histAligned ∧
      ∃ r, transform_trimming_length_data_for_plot initModuleState = .ok r :=
  claim_C9 [] initModuleState rfl

/-! ## Claim C1 -/

/-- Concrete file collaborators for the cutadapt counterexamples. -/
def fpC1 : FileParams :=
  { clean_s_name := fun fqs => match fqs with | f :: _ => f | [] => ""
    f_s_name := "log" }

/-- A log in which a histogram table is immediately followed by a marker
line (a new `Command line parameters:` line for sample B). -/
def c1Lines : List String := [
  "This is cutadapt 4.0\n",
  "Command line parameters: sampleA.fastq\n",
  "length count expect\n",
  "10 5 2.5\n",
  "Command line parameters: sampleB.fastq\n"]

/-- The same log without the histogram table in front of the marker. -/
def c1LinesNoHist : List String := [
  "This is cutadapt 4.0\n",
  "Command line parameters: sampleA.fastq\n",
  "Command line parameters: sampleB.fastq\n"]

/-- **C1 counterexample**: the first non-matching line after a histogram
table is NOT re-examined by the outer scan — it is dropped.  On
`c1Lines`, the `Command line parameters: sampleB.fastq` marker directly
follows the histogram rows and no record for sample B is created, whereas
on `c1LinesNoHist` (identical but for the histogram) the very same marker
line is processed and the record appears. -/
theorem claim_C1_counterexample :
    (exOk? (parse_cutadapt_logs fpC1 initModuleState c1Lines)).map
        (fun ms => ms.cutadapt_data.contains "sampleB.fastq") = some false ∧
    (exOk? (parse_cutadapt_logs fpC1 initModuleState c1LinesNoHist)).map
        (fun ms => ms.cutadapt_data.contains "sampleB.fastq") = some true :=
  ⟨rfl, rfl⟩

/-- **C1 (amended)**: the nested inner scan consumes consecutive lines
matching the three-numeric-field row pattern (the scan stays in histogram
mode on every matching row) and terminates at the first non-matching
line; that line is consumed together with the mode flag — the outer scan
resumes at the line AFTER it, so the first non-matching line is dropped,
not re-examined. -/
theorem claim_C1_amended (fp : FileParams) (st : ScanState) (psn : String)
    (hmode : st.hist_mode = some psn) :
    (∀ row t, parseHistRow row = some t → ∀ st', lineStep fp st row = .ok st' →
       st'.hist_mode = some psn) ∧
    (∀ line rest, parseHistRow line = none →
       scanLines fp st (line :: rest) =
         scanLines fp { st with hist_mode := none } rest) := by
  constructor
  · intro row t hrow st' hstep
    obtain ⟨a_len, cnt, g3⟩ := t
    unfold lineStep at hstep
    rw [hmode] at hstep
    simp only [hrow] at hstep
    cases hru : histRowUpdate st.end_ psn a_len cnt g3
        st.length_counts st.length_exp st.length_obsexp with
    | error e => rw [hru] at hstep; cases hstep
    | ok ceo =>
        rw [hru] at hstep
        cases hstep
        simp
  · intro line rest hnone
    have hstep : lineStep fp st line = .ok { st with hist_mode := none } := by
      unfold lineStep
      rw [hmode, hnone]
    unfold scanLines
    rw [List.foldlM_cons, hstep]
    simp only [bind, Except.bind]

/-- Witness for C1 (amended): a concrete in-histogram state. -/
def stC1 : ScanState :=
  { initScanState initModuleState with
      hist_mode := some "sampleA.fastq", s_name := some "sampleA.fastq" }

theorem claim_C1_amended_witness :
    scanLines fpC1 stC1 ["Command line parameters: sampleB.fastq\n"] =
      scanLines fpC1 { stC1 with hist_mode := none } [] :=
  (claim_C1_amended fpC1 stC1 "sampleA.fastq" rfl).2
    "Command line parameters: sampleB.fastq\n" [] rfl

/-! ## Claim C4 -/

theorem containsSub_of_pref {n h : List Char} (hp : isPrefixOfList n h = true) :
    containsSub n h = true := by
  cases h with
  | nil => exact hp
  | cons c cs => simp [containsSub, hp]

theorem isPrefixOfList_of_append (ys zs l : List Char)
    (h : isPrefixOfList (ys ++ zs) l = true) : isPrefixOfList ys l = true := by
  induction ys generalizing l with
  | nil => rfl
  | cons y ys ih =>
      cases l with
      | nil => simp [isPrefixOfList] at h
      | cons c cs =>
          simp only [List.cons_append, isPrefixOfList, Bool.and_eq_true] at h ⊢
          exact ⟨h.1, ih cs h.2⟩

theorem reMatchVersion_pref {lit line : String} {v : String}
    (h : reMatchVersion lit line = some v) :
    isPrefixOfList lit.data line.data = true := by
  unfold reMatchVersion at h
  split at h
  · assumption
  · cases h

/-- A line whose start matches the explicit version tag cannot also start
with the legacy tag (they begin with different characters), and vice
versa. -/
theorem prefix_head_determined {c : Char} {tl l : List Char}
    (h : isPrefixOfList (c :: tl) l = true) :
    ∃ rest, l = c :: rest := by
  cases l with
  | nil => simp [isPrefixOfList] at h
  | cons c' cs =>
      simp only [isPrefixOfList, Bool.and_eq_true, beq_iff_eq] at h
      exact ⟨cs, by rw [h.1]⟩

theorem newLog_of_match_new {line v : String}
    (h : reMatchVersion "This is cutadapt " line = some v) :
    isNewLogLine line = true := by
  have hp := reMatchVersion_pref h
  have hp' : isPrefixOfList "This is cutadapt".data line.data = true := by
    have : ("This is cutadapt ".data : List Char) =
        "This is cutadapt".data ++ [' '] := rfl
    rw [this] at hp
    exact isPrefixOfList_of_append _ _ _ hp
  unfold isNewLogLine strContains
  rw [containsSub_of_pref hp']
  rfl

theorem newLog_of_match_old {line v : String}
    (h : reMatchVersion "cutadapt version " line = some v) :
    isNewLogLine line = true := by
  have hp := reMatchVersion_pref h
  have hp' : isPrefixOfList "cutadapt version".data line.data = true := by
    have : ("cutadapt version ".data : List Char) =
        "cutadapt version".data ++ [' '] := rfl
    rw [this] at hp
    exact isPrefixOfList_of_append _ _ _ hp
  unfold isNewLogLine strContains
  rw [containsSub_of_pref hp']
  simp

theorem no_old_match_of_new {line v : String}
    (h : reMatchVersion "This is cutadapt " line = some v) :
    reMatchVersion "cutadapt version " line = none := by
  have hp := reMatchVersion_pref h
  have hp2 : isPrefixOfList ('T' :: "his is cutadapt ".data) line.data = true := hp
  obtain ⟨rest, hrest⟩ := prefix_head_determined hp2
  unfold reMatchVersion
  rw [hrest]
  simp [isPrefixOfList]

/-- Preservation of the active pattern table across any line that carries
no version marker. -/
theorem lineStep_parsing_version {fp : FileParams} {st : ScanState}
    {line : String} {st' : ScanState} (hno : isNewLogLine line = false)
    (h : lineStep fp st line = .ok st') :
    st'.parsing_version = st.parsing_version := by
  unfold lineStep at h
  split at h
  · split at h
    · split at h
      · cases h
      · cases h; rfl
    · cases h; rfl
  · unfold outerStep at h
    simp only [] at h
    rw [newLogUpdate_not_version hno] at h
    split at h
    · cases h
      exact (clParamsUpdate_fields fp st line).2.2.2.2.1
    · split at h
      · cases h
      · rename_i sn st2 happ
        split at h
        · cases h
        · rename_i st4 hov
          obtain ⟨data, rfl⟩ := applyRegexes_ok happ
          have e2 := (clParamsUpdate_fields fp st line).2.2.2.2.1
          have e3 := (sectionUpdate_fields
            { clParamsUpdate fp st line with cutadapt_data := data } line).2.2.2.2.2.1
          have e4 := (typeRegularUpdate_fields (sectionUpdate
            { clParamsUpdate fp st line with cutadapt_data := data } line) line).2.2.2.2.2.1
          have e5 := (overviewUpdate_ok_fields hov).2.2.1
          have e6 := (histHeaderUpdate_ok_fields h).2.1
          rw [e6, e5, e4, e3]
          exact e2

/-- **C4**: version-bucket selection.  (1) When the explicit tag
`This is cutadapt X` matches the line, the early-generation table
(`"1.6"`) is selected exactly when `X` parses as a version numerically at
most 1.6, and the current-generation table (`"1.7"`) otherwise; the
version string is recorded either way.  (2) When the legacy spelling
`cutadapt version X` matches, the early-generation table is selected
regardless of `X`.  (3) When no line of the file carries a version
marker, the scan keeps the current-generation table (`"1.7"`, the
initial value) throughout. -/
theorem claim_C4 :
    (∀ (st : ScanState) (line v : String),
       reMatchVersion "This is cutadapt " line = some v →
       (newLogUpdate st line).parsing_version =
         (if versionLe16 v then "1.6" else "1.7") ∧
       (newLogUpdate st line).cutadapt_version = some v) ∧
    (∀ (st : ScanState) (line v : String),
       reMatchVersion "cutadapt version " line = some v →
       (newLogUpdate st line).parsing_version = "1.6" ∧
       (newLogUpdate st line).cutadapt_version = some v) ∧
    (∀ (fp : FileParams) (lines : List String) (st st' : ScanState),
       st.parsing_version = "1.7" → (∀ l ∈ lines, isNewLogLine l = false) →
       scanLines fp st lines = .ok st' → st'.parsing_version = "1.7") := by
  refine ⟨?_, ?_, ?_⟩
  · intro st line v hm
    have hguard := newLog_of_match_new hm
    have hold := no_old_match_of_new hm
    unfold newLogUpdate
    rw [hguard]
    simp [hm, hold]
  · intro st line v hm
    have hguard := newLog_of_match_old hm
    unfold newLogUpdate
    rw [hguard]
    cases hn : reMatchVersion "This is cutadapt " line <;> simp [hm, hn]
  · intro fp lines
    induction lines with
    | nil =>
        intro st st' hpv hno h
        unfold scanLines at h
        simp only [List.foldlM_nil] at h
        cases h
        exact hpv
    | cons l ls ih =>
        intro st st' hpv hno h
        unfold scanLines at h
        rw [List.foldlM_cons] at h
        cases hstep : lineStep fp st l with
        | error e => rw [hstep] at h; cases h
        | ok s1 =>
            rw [hstep] at h
            simp only [bind, Except.bind] at h
            have hl : isNewLogLine l = false := hno l (List.mem_cons_self _ _)
            have h1 : s1.parsing_version = "1.7" :=
              (lineStep_parsing_version hl hstep).trans hpv
            exact ih s1 st' h1 (fun x hx => hno x (List.mem_cons_of_mem _ hx)) h

/-- Witness for C4: concrete version lines for each of the three parts
(explicit tag 1.5 → early table, legacy tag 4.0 → early table
unconditionally, no version line → current table kept). -/
theorem claim_C4_witness :
    (newLogUpdate (initScanState initModuleState)
       "This is cutadapt 1.5\n").parsing_version = "1.6" ∧
    (newLogUpdate (initScanState initModuleState)
       "cutadapt version 4.0\n").parsing_version = "1.6" ∧
    (initScanState initModuleState).parsing_version = "1.7" := by
  obtain ⟨h1, h2, h3⟩ := claim_C4
  refine ⟨?_, ?_, ?_⟩
  · have hv := (h1 (initScanState initModuleState)
      "This is cutadapt 1.5\n" "1.5" rfl).1
    have he : versionLe16 "1.5" = true := rfl
    rw [he] at hv
    simpa using hv
  · exact (h2 (initScanState initModuleState)
      "cutadapt version 4.0\n" "4.0" rfl).1
  · exact h3 fpC1 [] (initScanState initModuleState)
      (initScanState initModuleState) rfl (by simp) rfl

/-! ## Claim C5 -/

/-- Chained lookup in a three-level dictionary. -/
def get3 {V : Type} (d : Dict String (Dict String (Dict Nat V)))
    (k1 k2 : String) (k3 : Nat) : Option V :=
  match d.get? k1 with
  | none => none
  | some m =>
    match m.get? k2 with
    | none => none
    | some inner => inner.get? k3

/-- **C5**: for every histogram row consumed by the inner scan with
length `a_len`, integer count `cnt` and expected-float group `g3`
(reading as the rational `E`), the step records `cnt` in the count
mapping at `a_len`, `E` in the expected mapping, and `cnt / E` in the
obs/exp mapping when `E > 0` — the raw count `cnt` when `E = 0`; the
division is guarded, so division by zero is never performed. -/
theorem claim_C5 (fp : FileParams) (st : ScanState) (psn line : String)
    (a_len cnt : Nat) (g3 : List Char) (E : ℚ)
    (mc : Dict String (Dict Nat Nat)) (mcc : Dict Nat Nat)
    (me : Dict String (Dict Nat ℚ)) (mee : Dict Nat ℚ)
    (mo : Dict String (Dict Nat ℚ)) (moo : Dict Nat ℚ)
    (hmode : st.hist_mode = some psn)
    (hrow : parseHistRow line = some (a_len, cnt, g3))
    (hE : parsePyFloatQ g3 = some E)
    (hc : st.length_counts.get? st.end_ = some mc) (hcc : mc.get? psn = some mcc)
    (he : st.length_exp.get? st.end_ = some me) (hee : me.get? psn = some mee)
    (ho : st.length_obsexp.get? st.end_ = some mo) (hoo : mo.get? psn = some moo) :
    ∃ st', lineStep fp st line = .ok st' ∧
      get3 st'.length_counts st.end_ psn a_len = some cnt ∧
      get3 st'.length_exp st.end_ psn a_len = some E ∧
      get3 st'.length_obsexp st.end_ psn a_len =
        some (if 0 < E then (cnt : ℚ) / E else (cnt : ℚ)) := by
  have hsc : setNested3 st.length_counts st.end_ psn a_len cnt =
      .ok (st.length_counts.insert st.end_ (mc.insert psn (mcc.insert a_len cnt))) := by
    unfold setNested3
    simp only [hc, hcc]
  have hse : setNested3 st.length_exp st.end_ psn a_len E =
      .ok (st.length_exp.insert st.end_ (me.insert psn (mee.insert a_len E))) := by
    unfold setNested3
    simp only [he, hee]
  have hso : setNested3 st.length_obsexp st.end_ psn a_len
        (if 0 < E then (cnt : ℚ) / E else (cnt : ℚ)) =
      .ok (st.length_obsexp.insert st.end_ (mo.insert psn
        (moo.insert a_len (if 0 < E then (cnt : ℚ) / E else (cnt : ℚ))))) := by
    unfold setNested3
    simp only [ho, hoo]
  have hru : histRowUpdate st.end_ psn a_len cnt g3
      st.length_counts st.length_exp st.length_obsexp =
      .ok (st.length_counts.insert st.end_ (mc.insert psn (mcc.insert a_len cnt)),
           st.length_exp.insert st.end_ (me.insert psn (mee.insert a_len E)),
           st.length_obsexp.insert st.end_ (mo.insert psn
             (moo.insert a_len (if 0 < E then (cnt : ℚ) / E else (cnt : ℚ))))) := by
    unfold histRowUpdate
    simp only [hsc, hE, hse, hso]
  refine ⟨{ st with
      length_counts := st.length_counts.insert st.end_
        (mc.insert psn (mcc.insert a_len cnt))
      length_exp := st.length_exp.insert st.end_
        (me.insert psn (mee.insert a_len E))
      length_obsexp := st.length_obsexp.insert st.end_
        (mo.insert psn (moo.insert a_len
          (if 0 < E then (cnt : ℚ) / E else (cnt : ℚ)))) }, ?_, ?_, ?_, ?_⟩
  · unfold lineStep
    rw [hmode]
    simp only [hrow, hru]
  · simp [get3, Dict.get?_insert_self]
  · simp [get3, Dict.get?_insert_self]
  · simp [get3, Dict.get?_insert_self]

/-- A concrete in-histogram scan state for the C5 witness. -/
def stC5 : ScanState :=
  { initScanState initModuleState with
      hist_mode := some "s", s_name := some "s"
      length_counts := [("default", [("s", [])])]
      length_exp := [("default", [("s", [])])]
      length_obsexp := [("default", [("s", [])])] }

/-- Witness for C5: the round-trip row `10 5 2.5` under the `"default"`
orientation gives count 5, expected 5/2 and obs/exp 2. -/
theorem claim_C5_witness :
    ∃ st', lineStep fpC1 stC5 "10 5 2.5\n" = .ok st' ∧
      get3 st'.length_counts "default" "s" 10 = some 5 ∧
      get3 st'.length_exp "default" "s" 10 = some (5 / 2 : ℚ) ∧
      get3 st'.length_obsexp "default" "s" 10 = some (2 : ℚ) := by
  obtain ⟨st', h1, h2, h3, h4⟩ := claim_C5 fpC1 stC5 "s" "10 5 2.5\n" 10 5
    ['2', '.', '5'] (5 / 2 : ℚ) [("s", [])] [] [("s", [])] [] [("s", [])] []
    rfl rfl
    (by simp +decide [parsePyFloatQ, splitOnChar, splitOnCharAux, natOfDigits]
        norm_num)
    rfl rfl rfl rfl rfl rfl
  have hend : stC5.end_ = "default" := rfl
  rw [hend] at h2 h3 h4
  refine ⟨st', h1, h2, h3, ?_⟩
  rw [h4]
  norm_num

/-! ## Claim C7 -/

/-- **C7**: for every sample record holding both `bp_processed` and
`bp_written` as integers with `bp_processed > bp_written ≥ 0`, the
derived `percent_trimmed`, computed as
`(bp_processed - bp_written) / bp_processed * 100`, is stored on the
record and lies in the closed interval `[0, 100]`. -/
theorem claim_C7 (rec_ : Dict String Value) (bp bw : ℤ)
    (hbp : rec_.get? "bp_processed" = some (.int bp))
    (hbw : rec_.get? "bp_written" = some (.int bw))
    (hlt : bw < bp) (hnn : 0 ≤ bw) :
    ∃ q : ℚ, percentStep rec_ =
        .ok (rec_.insert "percent_trimmed" (.rat q)) ∧
      q = ((bp - bw : ℤ) : ℚ) / (bp : ℚ) * 100 ∧ 0 ≤ q ∧ q ≤ 100 := by
  have hc1 : rec_.contains "bp_processed" = true := Dict.contains_eq_true_of_get? hbp
  have hc2 : rec_.contains "bp_written" = true := Dict.contains_eq_true_of_get? hbw
  have hgi1 : getInt rec_ "bp_processed" = .ok bp := by
    unfold getInt asInt
    simp only [hbp]
  have hgi2 : getInt rec_ "bp_written" = .ok bw := by
    unfold getInt asInt
    simp only [hbw]
  have hbp0 : ¬ bp = 0 := by omega
  have hstep : percentStep rec_ =
      .ok (rec_.insert "percent_trimmed"
        (.rat (((bp - bw : ℤ) : ℚ) / (bp : ℚ) * 100))) := by
    unfold percentStep
    rw [hc1, hc2]
    simp only [Bool.and_self, if_true, hgi1, hgi2, if_neg hbp0]
  refine ⟨_, hstep, rfl, ?_, ?_⟩
  · have hnum : (0 : ℚ) ≤ ((bp - bw : ℤ) : ℚ) := by
      exact_mod_cast (by omega : (0 : ℤ) ≤ bp - bw)
    have hden : (0 : ℚ) < ((bp : ℤ) : ℚ) := by
      exact_mod_cast (by omega : (0 : ℤ) < bp)
    positivity
  · have hden : (0 : ℚ) < ((bp : ℤ) : ℚ) := by
      exact_mod_cast (by omega : (0 : ℤ) < bp)
    have hle : ((bp - bw : ℤ) : ℚ) ≤ ((bp : ℤ) : ℚ) := by
      exact_mod_cast (by omega : bp - bw ≤ bp)
    have hdiv : ((bp - bw : ℤ) : ℚ) / ((bp : ℤ) : ℚ) ≤ 1 :=
      (div_le_one hden).2 hle
    calc ((bp - bw : ℤ) : ℚ) / ((bp : ℤ) : ℚ) * 100 ≤ 1 * 100 :=
          mul_le_mul_of_nonneg_right hdiv (by norm_num)
      _ = 100 := by norm_num

/-- Witness for C7: `bp_processed = 100`, `bp_written = 80` gives
`percent_trimmed = 20 ∈ [0, 100]`. -/
theorem claim_C7_witness :
    ∃ q : ℚ,
      percentStep [("bp_processed", Value.int 100), ("bp_written", Value.int 80)] =
        .ok (Dict.insert [("bp_processed", Value.int 100), ("bp_written", Value.int 80)]
          "percent_trimmed" (.rat q)) ∧
      q = 20 ∧ 0 ≤ q ∧ q ≤ 100 := by
  obtain ⟨q, hq, he, h0, h1⟩ :=
    claim_C7 [("bp_processed", Value.int 100), ("bp_written", Value.int 80)]
      100 80 rfl rfl (by norm_num) (by norm_num)
  exact ⟨q, hq, by rw [he]; norm_num, h0, h1⟩

/-! ## Claim C6 -/

theorem getIntD_insert_ne (rec_ : Dict String Value) {k k' : String} (v : Value)
    (h : k ≠ k') : getIntD (rec_.insert k v) k' = getIntD rec_ k' := by
  unfold getIntD
  rw [Dict.get?_insert_ne _ _ h]

theorem unexplainedFamily_eval (rec_ : Dict String Value)
    (processed tooShort tooLong tooManyN written derived : String)
    (p ts tl tn w : ℤ)
    (hp : rec_.get? processed = some (.int p))
    (hts : getIntD rec_ tooShort = .ok ts)
    (htl : getIntD rec_ tooLong = .ok tl)
    (htn : getIntD rec_ tooManyN = .ok tn)
    (hw : getIntD rec_ written = .ok w) :
    unexplainedFamily rec_ processed tooShort tooLong tooManyN written derived =
      .ok (if p - ts - tl - tn - w > 0 then
        rec_.insert derived (.int (p - ts - tl - tn - w)) else rec_) := by
  have hc : rec_.contains processed = true := Dict.contains_eq_true_of_get? hp
  have hgi : getInt rec_ processed = .ok p := by
    unfold getInt asInt
    simp only [hp]
  unfold unexplainedFamily
  rw [hc]
  simp only [if_true, hgi, hts, htl, htn, hw]
  by_cases hq : p - ts - tl - tn - w > 0 <;> simp [hq]

/-- **C6**: for a current-generation record (version strictly above 1.6)
holding the processed counts, the derived unexplained-filtered count is
`processed - too_short - too_long - too_many_N - written` (absent terms
as zero via `getIntD`), computed independently for the single-end and the
paired-end families, and each derived field is present after the step if
and only if its difference is strictly positive. -/
theorem claim_C6 (rec_ : Dict String Value) (v : String) (rel : List Nat)
    (rp ts tl tn w pp pts ptl ptn pw : ℤ)
    (hv : rec_.get? "cutadapt_version" = some (.str v))
    (hrel : parseRelease v = some rel)
    (hgt : relGt rel [1, 6] = true)
    (hrp : rec_.get? "r_processed" = some (.int rp))
    (hts : getIntD rec_ "r_too_short" = .ok ts)
    (htl : getIntD rec_ "r_too_long" = .ok tl)
    (htn : getIntD rec_ "r_too_many_N" = .ok tn)
    (hw : getIntD rec_ "r_written" = .ok w)
    (hpp : rec_.get? "pairs_processed" = some (.int pp))
    (hpts : getIntD rec_ "pairs_too_short" = .ok pts)
    (hptl : getIntD rec_ "pairs_too_long" = .ok ptl)
    (hptn : getIntD rec_ "pairs_too_many_N" = .ok ptn)
    (hpw : getIntD rec_ "pairs_written" = .ok pw)
    (habs1 : rec_.get? "r_filtered_unexplained" = none)
    (habs2 : rec_.get? "pairs_filtered_unexplained" = none) :
    ∃ rec', unexplainedStep rec_ = .ok rec' ∧
      rec'.get? "r_filtered_unexplained" =
        (if rp - ts - tl - tn - w > 0 then
          some (.int (rp - ts - tl - tn - w)) else none) ∧
      rec'.get? "pairs_filtered_unexplained" =
        (if pp - pts - ptl - ptn - pw > 0 then
          some (.int (pp - pts - ptl - ptn - pw)) else none) := by
  have hfam1 := unexplainedFamily_eval rec_ "r_processed" "r_too_short"
    "r_too_long" "r_too_many_N" "r_written" "r_filtered_unexplained"
    rp ts tl tn w hrp hts htl htn hw
  by_cases hq1 : rp - ts - tl - tn - w > 0
  · rw [if_pos hq1] at hfam1
    have hpp1 : (rec_.insert "r_filtered_unexplained"
        (.int (rp - ts - tl - tn - w))).get? "pairs_processed" = some (.int pp) := by
      rw [Dict.get?_insert_ne _ _ (by decide)]
      exact hpp
    have hfam2 := unexplainedFamily_eval
      (rec_.insert "r_filtered_unexplained" (.int (rp - ts - tl - tn - w)))
      "pairs_processed" "pairs_too_short" "pairs_too_long" "pairs_too_many_N"
      "pairs_written" "pairs_filtered_unexplained" pp pts ptl ptn pw hpp1
      (by rw [getIntD_insert_ne _ _ (by decide)]; exact hpts)
      (by rw [getIntD_insert_ne _ _ (by decide)]; exact hptl)
      (by rw [getIntD_insert_ne _ _ (by decide)]; exact hptn)
      (by rw [getIntD_insert_ne _ _ (by decide)]; exact hpw)
    by_cases hq2 : pp - pts - ptl - ptn - pw > 0
    · rw [if_pos hq2] at hfam2
      refine ⟨(rec_.insert "r_filtered_unexplained"
          (.int (rp - ts - tl - tn - w))).insert "pairs_filtered_unexplained"
          (.int (pp - pts - ptl - ptn - pw)), ?_, ?_, ?_⟩
      · unfold unexplainedStep
        simp only [hv, hrel, hgt, if_true, hfam1, hfam2]
      · rw [if_pos hq1, Dict.get?_insert_ne _ _ (by decide),
          Dict.get?_insert_self]
      · rw [if_pos hq2, Dict.get?_insert_self]
    · rw [if_neg hq2] at hfam2
      refine ⟨rec_.insert "r_filtered_unexplained"
          (.int (rp - ts - tl - tn - w)), ?_, ?_, ?_⟩
      · unfold unexplainedStep
        simp only [hv, hrel, hgt, if_true, hfam1, hfam2]
      · rw [if_pos hq1, Dict.get?_insert_self]
      · rw [if_neg hq2, Dict.get?_insert_ne _ _ (by decide)]
        exact habs2
  · rw [if_neg hq1] at hfam1
    have hfam2 := unexplainedFamily_eval rec_
      "pairs_processed" "pairs_too_short" "pairs_too_long" "pairs_too_many_N"
      "pairs_written" "pairs_filtered_unexplained" pp pts ptl ptn pw hpp
      hpts hptl hptn hpw
    by_cases hq2 : pp - pts - ptl - ptn - pw > 0
    · rw [if_pos hq2] at hfam2
      refine ⟨rec_.insert "pairs_filtered_unexplained"
          (.int (pp - pts - ptl - ptn - pw)), ?_, ?_, ?_⟩
      · unfold unexplainedStep
        simp only [hv, hrel, hgt, if_true, hfam1, hfam2]
      · rw [if_neg hq1, Dict.get?_insert_ne _ _ (by decide)]
        exact habs1
      · rw [if_pos hq2, Dict.get?_insert_self]
    · rw [if_neg hq2] at hfam2
      refine ⟨rec_, ?_, ?_, ?_⟩
      · unfold unexplainedStep
        simp only [hv, hrel, hgt, if_true, hfam1, hfam2]
      · rw [if_neg hq1]
        exact habs1
      · rw [if_neg hq2]
        exact habs2

/-- Witness for C6: `r_processed = 100`, `r_too_short = 10`,
`r_too_long = 5`, `r_too_many_N = 0`, `r_written = 80` stores
`r_filtered_unexplained = 5`; `pairs_processed = 100` with
`pairs_written = 100` leaves `pairs_filtered_unexplained` absent. -/
def recC6 : Dict String Value := [
  ("cutadapt_version", Value.str "4.0"),
  ("r_processed", Value.int 100),
  ("r_too_short", Value.int 10),
  ("r_too_long", Value.int 5),
  ("r_too_many_N", Value.int 0),
  ("r_written", Value.int 80),
  ("pairs_processed", Value.int 100),
  ("pairs_written", Value.int 100)]

theorem claim_C6_witness :
    ∃ rec', unexplainedStep recC6 = .ok rec' ∧
      rec'.get? "r_filtered_unexplained" = some (.int 5) ∧
      rec'.get? "pairs_filtered_unexplained" = none := by
  obtain ⟨rec', h1, h2, h3⟩ := claim_C6 recC6 "4.0" [4, 0]
    100 10 5 0 80 100 0 0 0 100
    rfl rfl rfl rfl rfl rfl rfl rfl rfl rfl rfl rfl rfl rfl rfl
  refine ⟨rec', h1, ?_, ?_⟩
  · rw [h2]
    norm_num
  · rw [h3]
    norm_num

/-! ## Claim C3 -/

theorem percentStep_version {rec_ rec' : Dict String Value}
    (h : percentStep rec_ = .ok rec') :
    rec'.get? "cutadapt_version" = rec_.get? "cutadapt_version" := by
  unfold percentStep at h
  repeat' split at h
  all_goals cases h
  all_goals try rfl
  all_goals rw [Dict.get?_insert_ne _ _ (by decide)]

theorem deriveRecord_error_of_no_version {rec_ : Dict String Value}
    (h : rec_.get? "cutadapt_version" = none) :
    ∃ e, deriveRecord rec_ = .error e := by
  cases hps : percentStep rec_ with
  | error e =>
      refine ⟨e, ?_⟩
      unfold deriveRecord
      simp only [hps]
  | ok rec1 =>
      have hv : rec1.get? "cutadapt_version" = none :=
        (percentStep_version hps).trans h
      refine ⟨.keyError, ?_⟩
      unfold deriveRecord
      simp only [hps]
      unfold unexplainedStep
      simp only [hv]

theorem calculateDerived_error :
    ∀ (data : Dict String (Dict String Value)) (sn : String)
      (rec_ : Dict String Value), data.get? sn = some rec_ →
      rec_.get? "cutadapt_version" = none →
      ∃ e, calculateDerived data = .error e := by
  intro data
  induction data with
  | nil =>
      intro sn rec_ hmem hnov
      simp [Dict.get?] at hmem
  | cons kv rest ih =>
      intro sn rec_ hmem hnov
      obtain ⟨k, r⟩ := kv
      unfold Dict.get? at hmem
      cases hd : deriveRecord r with
      | error e =>
          refine ⟨e, ?_⟩
          unfold calculateDerived
          simp only [hd]
      | ok r' =>
          by_cases hk : (k == sn) = true
          · rw [if_pos hk] at hmem
            cases hmem
            obtain ⟨e, he⟩ := deriveRecord_error_of_no_version hnov
            rw [hd] at he
            cases he
          · rw [if_neg hk] at hmem
            obtain ⟨e, he⟩ := ih sn rec_ hmem hnov
            refine ⟨e, ?_⟩
            unfold calculateDerived
            simp only [hd, he]

/-- **C3**: if any sample record that reaches the derived-metrics second
pass lacks a recorded version string, the computation raises (the
`d["cutadapt_version"]` lookup at the generation check), aborting the
whole `parse_cutadapt_logs` call rather than skipping the record. -/
theorem claim_C3 (fp : FileParams) (ms : ModuleState) (lines : List String)
    (st : ScanState) (sn : String) (rec_ : Dict String Value)
    (hscan : scanLines fp (initScanState ms) lines = .ok st)
    (hmem : st.cutadapt_data.get? sn = some rec_)
    (hnov : rec_.get? "cutadapt_version" = none) :
    ∃ e, parse_cutadapt_logs fp ms lines = .error e := by
  obtain ⟨e, he⟩ := calculateDerived_error st.cutadapt_data sn rec_ hmem hnov
  refine ⟨e, ?_⟩
  unfold parse_cutadapt_logs
  simp only [hscan, he]

/-- A module state holding one version-less record for the C3 witness. -/
def msC3 : ModuleState := { initModuleState with cutadapt_data := [("s", [])] }

theorem claim_C3_witness :
    ∃ e, parse_cutadapt_logs fpC1 msC3 [] = .error e :=
  claim_C3 fpC1 msC3 [] (initScanState msC3) "s" [] rfl rfl rfl

/-! ## Claim C8 -/

/-- **C8**: a candidate file that does reach a header line whose
tab-separated fields do not include the discriminating column
`LEFT_GROUP_VALUE` is silently skipped: the parser returns the
accumulated record set unchanged (zero records contributed) and raises
nothing; parsing continues with the remaining files. -/
theorem claim_C8 (ign : String → Bool) (clean : String → String)
    (acc : Dict Nat (Dict String CVal)) (lines : List String)
    (val : String) (restLines comments : List String)
    (hsplit : take_till is_comment_or_blank lines = some (val, restLines, comments))
    (hhdr : ((splitOnChar '\t' (rstripNl val).data).map String.mk).contains
      "LEFT_GROUP_VALUE" = false) :
    parseCrosscheckFile ign clean acc lines = .ok acc := by
  unfold parseCrosscheckFile
  simp only [hsplit, hhdr]
  rfl

/-- Witness for C8: a tabular file with a foreign header contributes
nothing and does not raise. -/
theorem claim_C8_witness :
    parseCrosscheckFile (fun _ => false) id []
      ["#a\n", "#b\n", "OTHER\tCOLS\n", "1\t2\n"] = .ok [] :=
  claim_C8 (fun _ => false) id [] ["#a\n", "#b\n", "OTHER\tCOLS\n", "1\t2\n"]
    "OTHER\tCOLS\n" ["1\t2\n"] ["#a\n", "#b\n"] rfl rfl

/-! ## Claim C10 -/

theorem take_till_eq_none {fn : String → Bool} {lines : List String}
    (h : ∀ l ∈ lines, fn l = true) : take_till fn lines = none := by
  induction lines with
  | nil => rfl
  | cons l rest ih =>
      unfold take_till
      rw [h l (List.mem_cons_self _ _), if_pos rfl,
        ih (fun x hx => h x (List.mem_cons_of_mem _ hx))]
      rfl

/-- **C10**: the pairwise parser is not total over degenerate preambles.
(1) A candidate file consisting entirely of comment-prefixed or blank
lines never reaches a header: the preamble splitter returns its bare
empty tuple and the caller's two-element unpacking raises (`ValueError`).
(2) A file whose header does contain the discriminating column but whose
preamble has fewer than two lines raises an `IndexError` at
`comments[1]`.  In both cases parsing aborts instead of skipping the
file. -/
theorem claim_C10 :
    (∀ (ign : String → Bool) (clean : String → String)
       (acc : Dict Nat (Dict String CVal)) (lines : List String),
       (∀ l ∈ lines, is_comment_or_blank l = true) →
       parseCrosscheckFile ign clean acc lines = .error .valueError) ∧
    (∀ (ign : String → Bool) (clean : String → String)
       (acc : Dict Nat (Dict String CVal)) (lines : List String)
       (val : String) (restLines comments : List String),
       take_till is_comment_or_blank lines = some (val, restLines, comments) →
       comments.length < 2 →
       ((splitOnChar '\t' (rstripNl val).data).map String.mk).contains
         "LEFT_GROUP_VALUE" = true →
       parseCrosscheckFile ign clean acc lines = .error .indexError) := by
  constructor
  · intro ign clean acc lines h
    unfold parseCrosscheckFile
    rw [take_till_eq_none h]
  · intro ign clean acc lines val restLines comments hsplit hlen hhdr
    have hg : comments.get? 1 = none := by
      rw [List.get?_eq_none]
      omega
    unfold parseCrosscheckFile
    simp only [hsplit, hhdr, hg]
    rfl

/-- Witness for C10 at two concrete degenerate files. -/
theorem claim_C10_witness :
    parseCrosscheckFile (fun _ => false) id [] ["#x\n", "\n"] =
      .error .valueError ∧
    parseCrosscheckFile (fun _ => false) id []
      ["# single comment\n", "LEFT_GROUP_VALUE\n"] = .error .indexError := by
  constructor
  · exact claim_C10.1 (fun _ => false) id [] ["#x\n", "\n"] (by decide)
  · exact claim_C10.2 (fun _ => false) id [] ["# single comment\n", "LEFT_GROUP_VALUE\n"]
      "LEFT_GROUP_VALUE\n" [] ["# single comment\n"] rfl (by norm_num) rfl

/-! ## Claim C2 -/

/-- First pairwise report file: preamble, header, one data row. -/
def crossFile1 : List String := [
  "# CrosscheckFingerprints\n",
  "# picard CrosscheckFingerprints INPUT=x\n",
  "LEFT_SAMPLE\tLEFT_GROUP_VALUE\tRIGHT_SAMPLE\tRIGHT_GROUP_VALUE\n",
  "a1\tg1\tb1\th1\n"]

/-- Second pairwise report file, same shape, different surviving row. -/
def crossFile2 : List String := [
  "# CrosscheckFingerprints\n",
  "# picard CrosscheckFingerprints INPUT=y\n",
  "LEFT_SAMPLE\tLEFT_GROUP_VALUE\tRIGHT_SAMPLE\tRIGHT_GROUP_VALUE\n",
  "a2\tg2\tb2\th2\n"]

/-- The record the row of `crossFile1` parses to. -/
def crossRow1 : Dict String CVal := [
  ("LEFT_SAMPLE", CVal.str "a1"), ("LEFT_GROUP_VALUE", CVal.str "g1"),
  ("RIGHT_SAMPLE", CVal.str "b1"), ("RIGHT_GROUP_VALUE", CVal.str "h1"),
  ("LOD_THRESHOLD", CVal.pynone), ("TUMOR_AWARENESS", CVal.pynone)]

/-- The record the row of `crossFile2` parses to. -/
def crossRow2 : Dict String CVal := [
  ("LEFT_SAMPLE", CVal.str "a2"), ("LEFT_GROUP_VALUE", CVal.str "g2"),
  ("RIGHT_SAMPLE", CVal.str "b2"), ("RIGHT_GROUP_VALUE", CVal.str "h2"),
  ("LOD_THRESHOLD", CVal.pynone), ("TUMOR_AWARENESS", CVal.pynone)]

/-- **C2 counterexample**: the enumeration ordinal restarts at zero for
every input file, so keys are NOT unique across files.  Parsing
`crossFile1` alone stores its surviving row under key 0; parsing
`crossFile1` then `crossFile2` leaves a single record — `crossFile2`'s
row has overwritten `crossFile1`'s row at the shared key 0. -/
theorem claim_C2_counterexample :
    parse_reports (fun _ => false) id [crossFile1] = .ok [(0, crossRow1)] ∧
    parse_reports (fun _ => false) id [crossFile1, crossFile2] =
      .ok [(0, crossRow2)] :=
  ⟨rfl, rfl⟩

/-- Within one file, the row loop from an accumulator whose keys all lie
below the starting ordinal produces strictly-increasing keys. -/
theorem processRows_keys_chain (ign : String → Bool) (clean : String → String)
    (cli : Option Bool × Option ℚ) :
    ∀ (rows : List (Dict String CVal)) (n : Nat)
      (acc d : Dict Nat (Dict String CVal)),
      List.Chain' (· < ·) acc.keys → (∀ k ∈ acc.keys, k < n) →
      processRows ign clean cli acc (rows.enumFrom n) = .ok d →
      List.Chain' (· < ·) d.keys := by
  intro rows
  induction rows with
  | nil =>
      intro n acc d hch hb h
      unfold processRows at h
      cases h
      exact hch
  | cons r rs ih =>
      intro n acc d hch hb h
      rw [List.enumFrom_cons] at h
      unfold processRows at h
      cases hls : getStr r "LEFT_SAMPLE" with
      | error e => simp only [hls] at h; cases h
      | ok ls =>
        cases hrs : getStr r "RIGHT_SAMPLE" with
        | error e => simp only [hls, hrs] at h; cases h
        | ok rs_ =>
          simp only [hls, hrs] at h
          by_cases hig : (ign ls || ign rs_) = true
          · rw [if_pos hig] at h
            exact ih (n + 1) acc d hch
              (fun k hk => Nat.lt_succ_of_lt (hb k hk)) h
          · rw [if_neg hig] at h
            cases hcf : cleanRow clean r with
            | error e => simp only [hcf] at h; cases h
            | ok row' =>
              simp only [hcf] at h
              have hnot : n ∉ acc.keys := fun hmem => absurd (hb n hmem) (by omega)
              have hkeys := Dict.keys_insert_of_not_mem
                (row'.insert "LOD_THRESHOLD"
                   (match cli.2 with | some q => .float q | none => .pynone)
                 |>.insert "TUMOR_AWARENESS"
                   (match cli.1 with | some b => .bool b | none => .pynone)) hnot
              apply ih (n + 1) _ d ?_ ?_ h
              · rw [hkeys]
                rw [List.chain'_append]
                refine ⟨hch, List.chain'_singleton n, ?_⟩
                intro x hx y hy
                rw [List.head?_cons, Option.mem_some_iff] at hy
                subst hy
                exact hb x (List.mem_of_mem_getLast? hx)
              · intro k hk
                rw [hkeys, List.mem_append, List.mem_singleton] at hk
                rcases hk with hk | hk
                · exact Nat.lt_succ_of_lt (hb k hk)
                · omega

/-- **C2 (amended)**: within a single input file, every surviving row is
appended under the strictly-increasing per-file row ordinal, so any two
surviving rows of the same file are stored under distinct keys and
neither overwrites the other (the resulting key list is strictly
increasing).  Across files, however, the ordinal restarts at zero, so a
row of a later file overwrites the row any earlier file stored under the
same ordinal (see the counterexample). -/
theorem claim_C2_amended (ign : String → Bool) (clean : String → String)
    (lines : List String) (d : Dict Nat (Dict String CVal))
    (h : parseCrosscheckFile ign clean [] lines = .ok d) :
    List.Chain' (· < ·) d.keys := by
  unfold parseCrosscheckFile at h
  cases hsplit : take_till is_comment_or_blank lines with
  | none => rw [hsplit] at h; cases h
  | some vrc =>
    obtain ⟨val, restLines, comments⟩ := vrc
    rw [hsplit] at h
    simp only [] at h
    by_cases hhdr : ((splitOnChar '\t' (rstripNl val).data).map String.mk).contains
        "LEFT_GROUP_VALUE" = true
    · rw [hhdr] at h
      simp only [Bool.not_true, Bool.false_eq_true, if_false] at h
      cases hcli : (match comments.get? 1 with
          | none => Except.error PyErr.indexError
          | some c => parse_cli c : Except PyErr (Option Bool × Option ℚ)) with
      | error e => rw [hcli] at h; cases h
      | ok cli =>
        rw [hcli] at h
        have h' : processRows ign clean cli []
            ((dictReaderRows (((splitOnChar '\t' (rstripNl val).data).map String.mk))
              restLines).enumFrom 0) = .ok d := h
        exact processRows_keys_chain ign clean cli _ 0 [] d
          (List.chain'_nil) (by simp [Dict.keys]) h'
    · rw [Bool.not_eq_true] at hhdr
      rw [hhdr] at h
      simp only [Bool.not_false, if_true] at h
      cases h
      exact List.chain'_nil

/-- Witness for C2 (amended): the single-file parse of `crossFile1`. -/
theorem claim_C2_amended_witness :
    List.Chain' (· < ·) (Dict.keys [((0 : Nat), crossRow1)]) :=
  claim_C2_amended (fun _ => false) id crossFile1 [(0, crossRow1)] rfl
